import Mathlib

set_option maxHeartbeats 1000000

set_option maxRecDepth 8000

/-!
A verification development for the STS replay engine
(`sts/replay_event.py`, `sts/entities.py`).

The Python source is shallowly embedded: JSON values become an inductive
`Json`, Python exceptions become the inductive `PyError`, fallible Python
code returns `Except PyError _`, and the mutable simulation facade becomes
explicit state passing over a `Simulation` record.  Machine floats
(`SyncTime.as_float`, `wait_time`) are modelled exactly as rationals.

Definitions are translated from the source.  Where the source calls code
that is not part of the repository slice (the topology / controller-manager
/ patch-panel facade, the god scheduler's `insert_pending_message`, the
`blocked` flag of a connection), the corresponding definition carries a
doc comment starting with `Modelled from the spec:`.
-/

/-- JSON values, as produced by Python's `json` module: `null`, booleans,
numbers (modelled exactly as rationals), strings, arrays and objects
(ordered key/value lists; lookups take the first binding of a key). -/
inductive Json where
  | null : Json
  | bool (b : Bool) : Json
  | num (q : ℚ) : Json
  | str (s : String) : Json
  | arr (elems : List Json) : Json
  | obj (fields : List (String × Json)) : Json

/-- Python exceptions raised by the embedded code. `systemExit` models
`exit(n)`. -/
inductive PyError where
  | valueError (msg : String) : PyError
  | keyError (key : String) : PyError
  | typeError (msg : String) : PyError
  | runtimeError (msg : String) : PyError
  | nameError (name : String) : PyError
  | indexError (msg : String) : PyError
  | assertionError (msg : String) : PyError
  | systemExit (code : Nat) : PyError
deriving DecidableEq, Repr

/-- A controller id is an `(address, port)` pair (see
`experiment_config_lib.ControllerConfig.uuid`). -/
abbrev ControllerId := String × Int

/-- `sts.syncproto.base.SyncTime`, a `(seconds, microSeconds)` named tuple.
The fields are stored as the raw numbers found in the JSON input, so they
are modelled as rationals. -/
structure SyncTime where
  seconds : ℚ
  microSeconds : ℚ
deriving DecidableEq, Repr

/-- `SyncTime.as_float`; float arithmetic is modelled exactly over ℚ. -/
def SyncTime.as_float (t : SyncTime) : ℚ :=
  t.seconds + t.microSeconds / 1000000

/-- Modelled from the spec: `sts.input_traces.fingerprints.DPFingerprint` is
not part of the repository slice; §4.1 describes fingerprints as opaque
tuples built from message fields, serialized as their JSON value, so the
model wraps the JSON value itself. -/
structure DPFingerprint where
  val : Json

/-- Modelled from the spec: `OFFingerprint`, like `DPFingerprint`, wraps
the JSON value of the fingerprint tuple. -/
structure OFFingerprint where
  val : Json

/-- The closed set of concrete event subtypes of `sts/replay_event.py`,
with each subtype's own attributes (the attributes assigned in its
`__init__` beyond the common `label`/`time`/`dependent_labels`).
`checkInvariants` stores the *name* of the invariant-check method; the
source stores the method object itself, which is relevant only to
`to_json` (where it makes `json.dumps` raise) and is noted there. -/
inductive Ev where
  | switchFailure (dpid : Int) : Ev
  | switchRecovery (dpid : Int) : Ev
  | linkFailure (start_dpid start_port_no end_dpid end_port_no : Int) : Ev
  | linkRecovery (start_dpid start_port_no end_dpid end_port_no : Int) : Ev
  | controllerFailure (controller_id : ControllerId) : Ev
  | controllerRecovery (controller_id : ControllerId) : Ev
  | hostMigration (old_ingress_dpid old_ingress_port_no
      new_ingress_dpid new_ingress_port_no : Int) : Ev
  | policyChange (request_type : String) : Ev
  | trafficInjection : Ev
  | waitTime (wait_time : ℚ) : Ev
  | checkInvariants (fail_on_error : Bool) (invariant_check : String) : Ev
  | controlChannelBlock (dpid : Int) (controller_id : ControllerId) : Ev
  | controlChannelUnblock (dpid : Int) (controller_id : ControllerId) : Ev
  | dataplaneDrop (fingerprint : DPFingerprint) : Ev
  | dataplanePermit (fingerprint : DPFingerprint) : Ev
  | controlMessageReceive (dpid : Int) (controller_id : ControllerId)
      (fingerprint : OFFingerprint) : Ev
  | controllerStateChange (controller_id : ControllerId) (fingerprint : Json)
      (name : String) (value : Json) : Ev
  | deterministicValue : Ev

/-- An event: the common `Event.__init__` state plus the subtype tag and
its attributes. -/
structure Event where
  label : String
  time : SyncTime
  dependent_labels : List String
  body : Ev

/-- `isinstance(e, InputEvent)` for the closed subtype set.  Note that
`ControlChannelBlock`/`ControlChannelUnblock` are declared as
`InternalEvent` subclasses in the source (even though they appear in the
source's `all_input_events` list). -/
def isInputEvent : Ev → Bool
  | .switchFailure _ => true
  | .switchRecovery _ => true
  | .linkFailure _ _ _ _ => true
  | .linkRecovery _ _ _ _ => true
  | .controllerFailure _ => true
  | .controllerRecovery _ => true
  | .hostMigration _ _ _ _ => true
  | .policyChange _ => true
  | .trafficInjection => true
  | .waitTime _ => true
  | .checkInvariants _ _ => true
  | _ => false

/-- `EventDag._recovery_types`. -/
def isRecoveryType : Ev → Bool
  | .switchRecovery _ => true
  | .linkRecovery _ _ _ _ => true
  | .controllerRecovery _ => true
  | .controlChannelUnblock _ _ => true
  | _ => false

/-- `EventDag._failure_types`. -/
def isFailureType : Ev → Bool
  | .switchFailure _ => true
  | .linkFailure _ _ _ _ => true
  | .controllerFailure _ => true
  | .controlChannelBlock _ _ => true
  | _ => false

/-- `field in json_hash` / `json_hash[field]` lookup: first binding wins. -/
def jsonGet (h : List (String × Json)) (k : String) : Option Json :=
  (h.find? (fun p => p.1 == k)).map (fun p => p.2)

/-- `json_hash[field]`, raising `KeyError` when the field is missing. -/
def pyGetItem (h : List (String × Json)) (k : String) : Except PyError Json :=
  match jsonGet h k with
  | some v => .ok v
  | none => .error (.keyError k)

/-- `assert_fields_exist(json_hash, *fields)` (replay_event.py:268-273):
raise `ValueError` at the first field not present in the hash. -/
def assert_fields_exist (h : List (String × Json)) :
    List String → Except PyError Unit
  | [] => .ok ()
  | f :: rest =>
    if (jsonGet h f).isSome then assert_fields_exist h rest
    else .error (.valueError ("Field " ++ f ++ " not in json_hash " ++ "..."))

/-- Python `int()` truncates toward zero. -/
def ratTrunc (q : ℚ) : Int :=
  if 0 ≤ q then q.floor else q.ceil

/-- Python `int(x)` on a JSON value: numbers truncate toward zero, numeric
strings parse, booleans coerce, everything else raises. -/
def pyInt (j : Json) : Except PyError Int :=
  match j with
  | .num q => .ok (ratTrunc q)
  | .str s =>
    match s.toInt? with
    | some n => .ok n
    | none => .error (.valueError ("invalid literal for int(): " ++ s))
  | .bool b => .ok (if b then 1 else 0)
  | _ => .error (.typeError "int() argument must be a string or a number")

/-- `x[i]` on a JSON value (used for `json_hash['time'][0]` and
`controller_id[0]`). -/
def pyIndexNth (j : Json) (i : Nat) : Except PyError Json :=
  match j with
  | .arr l =>
    match l[i]? with
    | some v => .ok v
    | none => .error (.indexError "list index out of range")
  | _ => .error (.typeError "object is not subscriptable")

/-- Model-level coercion to a string field.  The source stores the raw
JSON value; this model rejects non-string values with a type error (no
claim exercises ill-typed labels or names). -/
def jsonStr (j : Json) : Except PyError String :=
  match j with
  | .str s => .ok s
  | _ => .error (.typeError "expected a string value")

/-- Model-level coercion to a numeric field (see `jsonStr`). -/
def jsonNum (j : Json) : Except PyError ℚ :=
  match j with
  | .num q => .ok q
  | _ => .error (.typeError "expected a numeric value")

/-- Model-level coercion to an integral number, for fields the source
stores raw (without `int()`), e.g. `dpid = json_hash['dpid']` in
`ControlChannelBlock.from_json`. -/
def jsonIntExact (j : Json) : Except PyError Int :=
  match j with
  | .num q => if q.den = 1 then .ok q.num
      else .error (.typeError "expected an integral value")
  | _ => .error (.typeError "expected a numeric value")

/-- Python truthiness of a JSON value (`if self.fail_on_error:`). -/
def pyTruthy : Json → Bool
  | .null => false
  | .bool b => b
  | .num q => q ≠ 0
  | .str s => s ≠ ""
  | .arr l => !l.isEmpty
  | .obj h => !h.isEmpty

/-- `extract_label_time` (replay_event.py:275-279). -/
def extract_label_time (h : List (String × Json)) :
    Except PyError (String × SyncTime) := do
  assert_fields_exist h ["label", "time"]
  let lbl ← jsonStr (← pyGetItem h "label")
  let t ← pyGetItem h "time"
  let t0 ← jsonNum (← pyIndexNth t 0)
  let t1 ← jsonNum (← pyIndexNth t 1)
  return (lbl, ⟨t0, t1⟩)

/-- `(controller_id[0], int(controller_id[1]))` as in
`ControllerFailure.from_json` / `ControllerRecovery.from_json`. -/
def parseControllerIdInt (j : Json) : Except PyError ControllerId := do
  let a ← jsonStr (← pyIndexNth j 0)
  let b ← pyInt (← pyIndexNth j 1)
  return (a, b)

/-- `tuple(json_hash['controller_id'])` as in the internal events' parsers:
the raw elements, without `int()`. -/
def parseControllerIdRaw (j : Json) : Except PyError ControllerId := do
  let a ← jsonStr (← pyIndexNth j 0)
  let b ← jsonIntExact (← pyIndexNth j 1)
  return (a, b)

def SwitchFailure.from_json (h : List (String × Json)) :
    Except PyError Event := do
  let (label, time) ← extract_label_time h
  assert_fields_exist h ["dpid"]
  let dpid ← pyInt (← pyGetItem h "dpid")
  return ⟨label, time, [], .switchFailure dpid⟩

def SwitchRecovery.from_json (h : List (String × Json)) :
    Except PyError Event := do
  let (label, time) ← extract_label_time h
  assert_fields_exist h ["dpid"]
  let dpid ← pyInt (← pyGetItem h "dpid")
  return ⟨label, time, [], .switchRecovery dpid⟩

def LinkFailure.from_json (h : List (String × Json)) :
    Except PyError Event := do
  let (label, time) ← extract_label_time h
  assert_fields_exist h ["start_dpid", "start_port_no", "end_dpid", "end_port_no"]
  let sd ← pyInt (← pyGetItem h "start_dpid")
  let sp ← pyInt (← pyGetItem h "start_port_no")
  let ed ← pyInt (← pyGetItem h "end_dpid")
  let ep ← pyInt (← pyGetItem h "end_port_no")
  return ⟨label, time, [], .linkFailure sd sp ed ep⟩

def LinkRecovery.from_json (h : List (String × Json)) :
    Except PyError Event := do
  let (label, time) ← extract_label_time h
  assert_fields_exist h ["start_dpid", "start_port_no", "end_dpid", "end_port_no"]
  let sd ← pyInt (← pyGetItem h "start_dpid")
  let sp ← pyInt (← pyGetItem h "start_port_no")
  let ed ← pyInt (← pyGetItem h "end_dpid")
  let ep ← pyInt (← pyGetItem h "end_port_no")
  return ⟨label, time, [], .linkRecovery sd sp ed ep⟩

/-- `ControllerFailure.from_json` (replay_event.py:402-408).  The source
calls `assert_fields_exist('controller_id')`, i.e. it passes the *string*
as the hash and no field names, so no field check happens; a missing
`controller_id` then surfaces as a `KeyError` from the subscript, not as
the `ValueError` of `assert_fields_exist`. -/
def ControllerFailure.from_json (h : List (String × Json)) :
    Except PyError Event := do
  let (label, time) ← extract_label_time h
  let cid ← parseControllerIdInt (← pyGetItem h "controller_id")
  return ⟨label, time, [], .controllerFailure cid⟩

/-- `ControllerRecovery.from_json` (replay_event.py:424-430).  Like
`ControllerFailure.from_json` it performs no field check; and its final
line is `return ControllerFailure(controller_id, label=label, time=time)`,
so it constructs a *ControllerFailure*, not a ControllerRecovery. -/
def ControllerRecovery.from_json (h : List (String × Json)) :
    Except PyError Event := do
  let (label, time) ← extract_label_time h
  let cid ← parseControllerIdInt (← pyGetItem h "controller_id")
  return ⟨label, time, [], .controllerFailure cid⟩

def HostMigration.from_json (h : List (String × Json)) :
    Except PyError Event := do
  let (label, time) ← extract_label_time h
  assert_fields_exist h ["old_ingress_dpid", "old_ingress_port_no",
                         "new_ingress_dpid", "new_ingress_port_no"]
  let od ← pyInt (← pyGetItem h "old_ingress_dpid")
  let op ← pyInt (← pyGetItem h "old_ingress_port_no")
  let nd ← pyInt (← pyGetItem h "new_ingress_dpid")
  let np ← pyInt (← pyGetItem h "new_ingress_port_no")
  return ⟨label, time, [], .hostMigration od op nd np⟩

def PolicyChange.from_json (h : List (String × Json)) :
    Except PyError Event := do
  let (label, time) ← extract_label_time h
  assert_fields_exist h ["request_type"]
  let rt ← jsonStr (← pyGetItem h "request_type")
  return ⟨label, time, [], .policyChange rt⟩

def TrafficInjection.from_json (h : List (String × Json)) :
    Except PyError Event := do
  let (label, time) ← extract_label_time h
  return ⟨label, time, [], .trafficInjection⟩

def WaitTime.from_json (h : List (String × Json)) :
    Except PyError Event := do
  let (label, time) ← extract_label_time h
  assert_fields_exist h ["wait_time"]
  let wt ← jsonNum (← pyGetItem h "wait_time")
  return ⟨label, time, [], .waitTime wt⟩

/-- Modelled from the spec: the `InvariantChecker` class is not part of
the repository slice; §4.2 uses `check_correspondence` as the default
check and §6 says `invariant_check` names one of its methods. -/
def invariantCheckerMethods : List String := ["check_correspondence"]

def CheckInvariants.from_json (h : List (String × Json)) :
    Except PyError Event := do
  let (label, time) ← extract_label_time h
  let fail_on_error :=
    match jsonGet h "fail_on_error" with
    | some v => pyTruthy v
    | none => false
  let check ←
    match jsonGet h "invariant_check" with
    | some v => do
      let name ← jsonStr v
      if name ∈ invariantCheckerMethods then pure name
      else .error (.valueError ("No such method " ++ name ++ " in InvariantChecker"))
    | none => pure "check_correspondence"
  return ⟨label, time, [], .checkInvariants fail_on_error check⟩

def ControlChannelBlock.from_json (h : List (String × Json)) :
    Except PyError Event := do
  let (label, time) ← extract_label_time h
  assert_fields_exist h ["dpid", "controller_id"]
  let dpid ← jsonIntExact (← pyGetItem h "dpid")
  let cid ← parseControllerIdRaw (← pyGetItem h "controller_id")
  return ⟨label, time, [], .controlChannelBlock dpid cid⟩

def ControlChannelUnblock.from_json (h : List (String × Json)) :
    Except PyError Event := do
  let (label, time) ← extract_label_time h
  assert_fields_exist h ["dpid", "controller_id"]
  let dpid ← jsonIntExact (← pyGetItem h "dpid")
  let cid ← parseControllerIdRaw (← pyGetItem h "controller_id")
  return ⟨label, time, [], .controlChannelUnblock dpid cid⟩

def DataplaneDrop.from_json (h : List (String × Json)) :
    Except PyError Event := do
  let (label, time) ← extract_label_time h
  assert_fields_exist h ["fingerprint"]
  let fp ← pyGetItem h "fingerprint"
  return ⟨label, time, [], .dataplaneDrop ⟨fp⟩⟩

def DataplanePermit.from_json (h : List (String × Json)) :
    Except PyError Event := do
  let (label, time) ← extract_label_time h
  assert_fields_exist h ["fingerprint"]
  let fp ← pyGetItem h "fingerprint"
  return ⟨label, time, [], .dataplanePermit ⟨fp⟩⟩

def ControlMessageReceive.from_json (h : List (String × Json)) :
    Except PyError Event := do
  let (label, time) ← extract_label_time h
  assert_fields_exist h ["dpid", "controller_id", "fingerprint"]
  let dpid ← jsonIntExact (← pyGetItem h "dpid")
  let cid ← parseControllerIdRaw (← pyGetItem h "controller_id")
  let fp ← pyGetItem h "fingerprint"
  return ⟨label, time, [], .controlMessageReceive dpid cid ⟨fp⟩⟩

/-- `ControllerStateChange.from_json` (replay_event.py:712-721).  The
source's `assert_fields_exist` call demands a `dpid` field — which
`ControllerStateChange` neither stores nor uses — in addition to
`controller_id`, `fingerprint`, `name` and `value`. -/
def ControllerStateChange.from_json (h : List (String × Json)) :
    Except PyError Event := do
  let (label, time) ← extract_label_time h
  assert_fields_exist h ["dpid", "controller_id", "fingerprint", "name", "value"]
  let cid ← parseControllerIdRaw (← pyGetItem h "controller_id")
  let fp ← pyGetItem h "fingerprint"
  let name ← jsonStr (← pyGetItem h "name")
  let value ← pyGetItem h "value"
  return ⟨label, time, [], .controllerStateChange cid fp name value⟩

/-- Modelled from the spec: the decoder's dispatch on the `class` field
lives in the log parser, outside the repository slice; §6 says unknown
`class` values (and a missing `class` key) cause a structural error and
each known class is parsed by its subtype's `from_json`. -/
def from_json (j : Json) : Except PyError Event :=
  match j with
  | .obj h =>
    match jsonGet h "class" with
    | some (.str c) =>
      if c = "SwitchFailure" then SwitchFailure.from_json h
      else if c = "SwitchRecovery" then SwitchRecovery.from_json h
      else if c = "LinkFailure" then LinkFailure.from_json h
      else if c = "LinkRecovery" then LinkRecovery.from_json h
      else if c = "ControllerFailure" then ControllerFailure.from_json h
      else if c = "ControllerRecovery" then ControllerRecovery.from_json h
      else if c = "HostMigration" then HostMigration.from_json h
      else if c = "PolicyChange" then PolicyChange.from_json h
      else if c = "TrafficInjection" then TrafficInjection.from_json h
      else if c = "WaitTime" then WaitTime.from_json h
      else if c = "CheckInvariants" then CheckInvariants.from_json h
      else if c = "ControlChannelBlock" then ControlChannelBlock.from_json h
      else if c = "ControlChannelUnblock" then ControlChannelUnblock.from_json h
      else if c = "DataplaneDrop" then DataplaneDrop.from_json h
      else if c = "DataplanePermit" then DataplanePermit.from_json h
      else if c = "ControlMessageReceive" then ControlMessageReceive.from_json h
      else if c = "ControllerStateChange" then ControllerStateChange.from_json h
      else .error (.valueError ("Unknown event class " ++ c))
    | some _ => .error (.valueError "class field is not a string")
    | none => .error (.valueError "Field class not in json_hash")
  | _ => .error (.typeError "event json is not an object")

/-- JSON serialization of a `SyncTime` (a named tuple serializes as an
array). -/
def SyncTime.to_json (t : SyncTime) : Json := .arr [.num t.seconds, .num t.microSeconds]

/-- JSON serialization of a controller id tuple. -/
def controllerIdJson (c : ControllerId) : Json := .arr [.str c.1, .num (c.2 : ℚ)]

/-- The name of the event's class (`self.__class__.__name__`). -/
def Ev.className : Ev → String
  | .switchFailure _ => "SwitchFailure"
  | .switchRecovery _ => "SwitchRecovery"
  | .linkFailure _ _ _ _ => "LinkFailure"
  | .linkRecovery _ _ _ _ => "LinkRecovery"
  | .controllerFailure _ => "ControllerFailure"
  | .controllerRecovery _ => "ControllerRecovery"
  | .hostMigration _ _ _ _ => "HostMigration"
  | .policyChange _ => "PolicyChange"
  | .trafficInjection => "TrafficInjection"
  | .waitTime _ => "WaitTime"
  | .checkInvariants _ _ => "CheckInvariants"
  | .controlChannelBlock _ _ => "ControlChannelBlock"
  | .controlChannelUnblock _ _ => "ControlChannelUnblock"
  | .dataplaneDrop _ => "DataplaneDrop"
  | .dataplanePermit _ => "DataplanePermit"
  | .controlMessageReceive _ _ _ => "ControlMessageReceive"
  | .controllerStateChange _ _ _ _ => "ControllerStateChange"
  | .deterministicValue => "DeterministicValue"

/-- The subtype-specific attributes of `self.__dict__`, as JSON fields. -/
def Ev.attrFields : Ev → List (String × Json)
  | .switchFailure d => [("dpid", .num (d : ℚ))]
  | .switchRecovery d => [("dpid", .num (d : ℚ))]
  | .linkFailure sd sp ed ep =>
      [("start_dpid", .num (sd : ℚ)), ("start_port_no", .num (sp : ℚ)),
       ("end_dpid", .num (ed : ℚ)), ("end_port_no", .num (ep : ℚ))]
  | .linkRecovery sd sp ed ep =>
      [("start_dpid", .num (sd : ℚ)), ("start_port_no", .num (sp : ℚ)),
       ("end_dpid", .num (ed : ℚ)), ("end_port_no", .num (ep : ℚ))]
  | .controllerFailure c => [("controller_id", controllerIdJson c)]
  | .controllerRecovery c => [("controller_id", controllerIdJson c)]
  | .hostMigration od op nd np =>
      [("old_ingress_dpid", .num (od : ℚ)), ("old_ingress_port_no", .num (op : ℚ)),
       ("new_ingress_dpid", .num (nd : ℚ)), ("new_ingress_port_no", .num (np : ℚ))]
  | .policyChange rt => [("request_type", .str rt)]
  | .trafficInjection => []
  | .waitTime wt => [("wait_time", .num wt)]
  | .checkInvariants foe chk =>
      [("fail_on_error", .bool foe), ("invariant_check", .str chk)]
  | .controlChannelBlock d c =>
      [("dpid", .num (d : ℚ)), ("controller_id", controllerIdJson c)]
  | .controlChannelUnblock d c =>
      [("dpid", .num (d : ℚ)), ("controller_id", controllerIdJson c)]
  | .dataplaneDrop fp => [("fingerprint", fp.val)]
  | .dataplanePermit fp => [("fingerprint", fp.val)]
  | .controlMessageReceive d c fp =>
      [("dpid", .num (d : ℚ)), ("controller_id", controllerIdJson c),
       ("fingerprint", fp.val)]
  | .controllerStateChange c fp n v =>
      [("controller_id", controllerIdJson c), ("fingerprint", fp),
       ("name", .str n), ("value", v)]
  | .deterministicValue => []

/-- `Event.to_json` (replay_event.py:226-229): dump `self.__dict__` plus a
`class` field.  For `CheckInvariants` the dict holds the
`invariant_check` *method object*, which `json.dumps` cannot serialize:
that case raises `TypeError`. -/
def to_json (e : Event) : Except PyError Json :=
  match e.body with
  | .checkInvariants _ _ =>
    .error (.typeError "is not JSON serializable")
  | b =>
    .ok (.obj ([("label", .str e.label), ("time", e.time.to_json),
                ("dependent_labels", .arr (e.dependent_labels.map Json.str))]
               ++ b.attrFields ++ [("class", .str b.className)]))

/-- `int(math.ceil(m * 1.0 / i))` for naturals: the exact rational ceiling
of the division.  (The source computes the ceiling through a float
division; for list lengths the float result is exact.) -/
def cdiv (m i : Nat) : Nat := (m + i - 1) / i

/-- The `while start_idx < len(events)` loop of `split_inputs`.  The loop
state keeps `split_idx = start_idx + split_interval` as an invariant, so
only `start` and `interval` are carried.  `fuel` bounds the number of
iterations; `none` means the fuel ran out, which models the loop failing
to terminate (with `interval = 0` the source appends empty slices
forever). -/
def splitLoop {α : Type} (events : List α) (k : Nat) :
    Nat → Nat → Nat → List (List α) → Option (List (List α))
  | 0, _, _, _ => none
  | fuel + 1, start, interval, splits =>
    if start < events.length then
      splitLoop events k fuel (start + interval)
        (if events.length ≤ (start + interval) + interval ∧
            (splits ++ [(events.drop start).take interval]).length = k - 2
         then interval - 1 else interval)
        (splits ++ [(events.drop start).take interval])
    else some splits

/-- `EventDag.split_inputs(split_ways)`.  The outer `Option` is the
termination marker of `splitLoop` (`none` = the loop diverges); the
`Except` carries the `ValueError("Invalid split ways %d")` branch.  The
fuel `events.length + 1` is enough for every terminating run, since each
iteration with a positive interval consumes at least one element. -/
def split_inputs {α : Type} (events : List α) (split_ways : Int) :
    Option (Except PyError (List (List α))) :=
  if events.length = 0 then some (.ok [[]])
  else if split_ways = 1 then some (.ok [events])
  else if split_ways < 1 ∨ (events.length : Int) < split_ways then
    some (.error (.valueError "Invalid split ways"))
  else
    (splitLoop events split_ways.toNat (events.length + 1) 0
      (cdiv events.length split_ways.toNat) []).map .ok

mutual

/-- Structural equality of JSON values (Python `==` on parsed JSON),
used where external code compares fingerprints. -/
def Json.beq : Json → Json → Bool
  | .null, .null => true
  | .bool a, .bool b => a == b
  | .num a, .num b => a == b
  | .str a, .str b => a == b
  | .arr a, .arr b => Json.beqList a b
  | .obj a, .obj b => Json.beqObj a b
  | _, _ => false

def Json.beqList : List Json → List Json → Bool
  | [], [] => true
  | a :: as, b :: bs => Json.beq a b && Json.beqList as bs
  | _, _ => false

def Json.beqObj : List (String × Json) → List (String × Json) → Bool
  | [], [] => true
  | (ka, va) :: as, (kb, vb) :: bs =>
    ka == kb && Json.beq va vb && Json.beqObj as bs
  | _, _ => false
end

/-- First-match association-list lookup (Python dict access, modelling
dicts whose keys are unique). -/
def assocFind {κ ν : Type} [DecidableEq κ] (l : List (κ × ν)) (k : κ) :
    Option ν :=
  (l.find? (fun p => decide (p.1 = k))).map (fun p => p.2)

/-- Update the first binding of a key in an association list. -/
def assocUpdate {κ ν : Type} [DecidableEq κ] (l : List (κ × ν)) (k : κ)
    (f : ν → ν) : List (κ × ν) :=
  match l with
  | [] => []
  | (k', v) :: t =>
    if k' = k then (k', f v) :: t else (k', v) :: assocUpdate t k f

/-- Remove the first element satisfying a predicate. -/
def removeFirstBy {β : Type} (p : β → Bool) : List β → List β
  | [] => []
  | x :: t => if p x then t else x :: removeFirstBy p t

/-- An `ofp_phy_port` object, abstracted to its salient fields. -/
structure Port where
  port_no : Int
  hw_addr : Int
deriving DecidableEq

/-- Modelled from the spec: a switch↔controller connection's `blocked`
state (§4.4: "State: `blocked: bool` (initially false)").  The source
reads it as `connection.currently_blocked` (replay_event.py:558,584). -/
structure Connection where
  currently_blocked : Bool
deriving DecidableEq

/-- A simulated switch: its port map (`ports`) and its
controller-id → connection map (`uuid2connection`,
see `FuzzSoftwareSwitch.__init__`, entities.py:70). -/
structure Switch where
  ports : List (Int × Port)
  uuid2connection : List (ControllerId × Connection)
deriving DecidableEq

/-- `FuzzSoftwareSwitch.get_connection(uuid)` (entities.py:111-114):
`ValueError` when there is no such connection. -/
def Switch.get_connection (sw : Switch) (uuid : ControllerId) :
    Except PyError Connection :=
  match assocFind sw.uuid2connection uuid with
  | some c => .ok c
  | none => .error (.valueError "No such connection")

/-- The simulation facade state the embedded `proceed` operations touch.
`facade_log` records the facade calls whose effects lie outside the
repository slice (topology mutation, controller lifecycle). -/
structure Simulation where
  switches : List (Int × Switch)
  controllers : List ControllerId
  patch_buffer : List DPFingerprint
  god_pending : List (Int × ControllerId × OFFingerprint)
  pending_state_changes : List (ControllerId × SyncTime × Json × String × Json)
  dataplane_trace : Option Nat
  violations : List String
  facade_log : List String

/-- Modelled from the spec: `simulation.topology.get_switch(dpid)` (§4.7);
an unknown dpid is a fatal error. -/
def Simulation.get_switch (sim : Simulation) (dpid : Int) :
    Except PyError Switch :=
  match assocFind sim.switches dpid with
  | some sw => .ok sw
  | none => .error (.valueError "unknown dpid")

/-- Modelled from the spec: `controller_manager.get_controller(id)` (§4.7). -/
def Simulation.get_controller (sim : Simulation) (cid : ControllerId) :
    Except PyError ControllerId :=
  if cid ∈ sim.controllers then .ok cid
  else .error (.valueError "unknown controller")

/-- Record a facade call whose effect is outside the repository slice. -/
def Simulation.logCall (sim : Simulation) (msg : String) : Simulation :=
  { sim with facade_log := sim.facade_log ++ [msg] }

/-- Modelled from the spec: `connection.block()` / `connection.unblock()`
(§4.4) set the `blocked` flag of the connection that
`get_switch(dpid).get_connection(cid)` resolves to. -/
def Simulation.set_blocked (sim : Simulation) (dpid : Int)
    (cid : ControllerId) (b : Bool) : Simulation :=
  { sim with
    switches := assocUpdate sim.switches dpid (fun sw =>
      { sw with uuid2connection :=
          assocUpdate sw.uuid2connection cid (fun _ => ⟨b⟩) }) }

/-- `Link` (entities.py:149-190), with switch objects identified by their
object identity (`__eq__` on switches is identity comparison). -/
structure Link where
  start_software_switch : Int
  start_port : Port
  end_software_switch : Int
  end_port : Port
deriving DecidableEq

/-- `Link.__init__` when both ports are given as ints (entities.py:157-163):
assert the start port number is in the start switch's port map and resolve
it there; assert the end port number — against the *start* switch's port
map (the source's line 162 consults `start_software_switch.ports`) — and
then resolve it in the *end* switch's port map, which can raise `KeyError`. -/
def linkFromPortNos (sdpid : Int) (ssw : Switch) (sport : Int)
    (edpid : Int) (esw : Switch) (eport : Int) : Except PyError Link :=
  match assocFind ssw.ports sport with
  | none => .error (.assertionError "start_port in start_software_switch.ports")
  | some sp =>
    if (assocFind ssw.ports eport).isSome then
      match assocFind esw.ports eport with
      | some ep => .ok ⟨sdpid, sp, edpid, ep⟩
      | none => .error (.keyError "end_port")
    else .error (.assertionError "end_port in start_software_switch.ports")

/-- `get_link(link_event, simulation)` (replay_event.py:323-328). -/
def get_link (sim : Simulation) (start_dpid start_port_no end_dpid end_port_no : Int) :
    Except PyError Link := do
  let ssw ← sim.get_switch start_dpid
  let esw ← sim.get_switch end_dpid
  linkFromPortNos start_dpid ssw start_port_no end_dpid esw end_port_no

/-- `Link.reversed_link` (entities.py:187-190): the constructor is called
with already-resolved port objects, so it reduces to swapping the
endpoints. -/
def Link.reversed_link (l : Link) : Link :=
  ⟨l.end_software_switch, l.end_port, l.start_software_switch, l.start_port⟩

/-- `Link.__eq__` (entities.py:171-177) on two `Link` values. -/
def linkEq (a b : Link) : Bool :=
  decide (a.start_software_switch = b.start_software_switch) &&
  decide (a.start_port = b.start_port) &&
  decide (a.end_software_switch = b.end_software_switch) &&
  decide (a.end_port = b.end_port)

/-- `patch_panel.get_buffered_dp_event(fingerprint)`, modelled from the
spec (§4.7): the first buffered packet whose fingerprint matches. -/
def Simulation.get_buffered_dp_event (sim : Simulation) (fp : DPFingerprint) :
    Option DPFingerprint :=
  sim.patch_buffer.find? (fun x => Json.beq x.val fp.val)

/-- Matching of a god-scheduler pending entry against a
`PendingReceive(dpid, controller_id, fingerprint)` triple. -/
def pendingMatch (dpid : Int) (cid : ControllerId) (fp : OFFingerprint)
    (entry : Int × ControllerId × OFFingerprint) : Bool :=
  decide (entry.1 = dpid) && decide (entry.2.1 = cid) &&
    Json.beq entry.2.2.val fp.val

/-- Matching of a pending controller state change against a
`PendingStateChange(controller_id, time, fingerprint, name, value)`. -/
def stateChangeMatch (cid : ControllerId) (t : SyncTime) (fp : Json)
    (name : String) (value : Json)
    (entry : ControllerId × SyncTime × Json × String × Json) : Bool :=
  decide (entry.1 = cid) && decide (entry.2.1 = t) &&
    Json.beq entry.2.2.1 fp && decide (entry.2.2.2.1 = name) &&
    Json.beq entry.2.2.2.2 value

/-- `Event.proceed(simulation)` for every concrete subtype
(replay_event.py).  The `Bool` in the result is the truthiness of the
Python return value: `True` means done; `None` (from `pass` bodies) and
`False` are both falsy, which the replay loop treats as not-yet.
Exceptions are `.error`. -/
def proceed (e : Event) (sim : Simulation) :
    Except PyError (Bool × Simulation) :=
  match e.body with
  | .switchFailure dpid =>
    match sim.get_switch dpid with
    | .error err => .error err
    | .ok _ => .ok (true, sim.logCall "crash_switch")
  | .switchRecovery dpid =>
    match sim.get_switch dpid with
    | .error err => .error err
    | .ok _ => .ok (true, sim.logCall "recover_switch")
  | .linkFailure sd sp ed ep =>
    match get_link sim sd sp ed ep with
    | .error err => .error err
    | .ok _ => .ok (true, sim.logCall "sever_link")
  | .linkRecovery sd sp ed ep =>
    match get_link sim sd sp ed ep with
    | .error err => .error err
    | .ok _ => .ok (true, sim.logCall "repair_link")
  | .controllerFailure cid =>
    match sim.get_controller cid with
    | .error err => .error err
    | .ok _ => .ok (true, sim.logCall "kill_controller")
  | .controllerRecovery cid =>
    match sim.get_controller cid with
    | .error err => .error err
    | .ok _ => .ok (true, sim.logCall "reboot_controller")
  | .hostMigration _ _ _ _ =>
    .ok (true, sim.logCall "migrate_host")
  | .policyChange _ =>
    -- replay_event.py:470-472: the body is `pass`, so the method returns
    -- `None`, which is falsy.
    .ok (false, sim)
  | .trafficInjection =>
    match sim.dataplane_trace with
    | none => .error (.runtimeError "No dataplane trace specified!")
    | some n =>
      .ok (true, { sim.logCall "inject_trace_event" with
                   dataplane_trace := some (n - 1) })
  | .waitTime _ =>
    .ok (true, sim.logCall "sleep")
  | .checkInvariants fail_on_error _ =>
    if sim.violations = [] then .ok (true, sim.logCall "no violations")
    else if fail_on_error then .error (.systemExit 5)
    else .ok (true, sim.logCall "violations warning")
  | .controlChannelBlock dpid cid =>
    match sim.get_switch dpid with
    | .error err => .error err
    | .ok sw =>
      match sw.get_connection cid with
      | .error err => .error err
      | .ok conn =>
        if conn.currently_blocked then
          .error (.runtimeError "Expected channel to not be blocked")
        else
          .ok (true, sim.set_blocked dpid cid true)
  | .controlChannelUnblock dpid cid =>
    match sim.get_switch dpid with
    | .error err => .error err
    | .ok sw =>
      match sw.get_connection cid with
      | .error err => .error err
      | .ok conn =>
        if conn.currently_blocked then
          .ok (true, sim.set_blocked dpid cid false)
        else
          .error (.runtimeError "Expected channel to be blocked")
  | .dataplaneDrop fp =>
    match sim.get_buffered_dp_event fp with
    | some _ =>
      .ok (true, { sim.logCall "drop_dp_event" with
        patch_buffer :=
          removeFirstBy (fun x => Json.beq x.val fp.val) sim.patch_buffer })
    | none => .ok (false, sim)
  | .dataplanePermit fp =>
    match sim.get_buffered_dp_event fp with
    | some _ =>
      .ok (true, { sim.logCall "permit_dp_event" with
        patch_buffer :=
          removeFirstBy (fun x => Json.beq x.val fp.val) sim.patch_buffer })
    | none => .ok (false, sim)
  | .controlMessageReceive dpid cid fp =>
    if (sim.god_pending.find? (pendingMatch dpid cid fp)).isSome then
      .ok (true, { sim.logCall "god_scheduler.schedule" with
        god_pending := removeFirstBy (pendingMatch dpid cid fp) sim.god_pending })
    else .ok (false, sim)
  | .controllerStateChange cid fp name value =>
    if (sim.pending_state_changes.find?
          (stateChangeMatch cid e.time fp name value)).isSome then
      .ok (true, { sim.logCall "gc_pending_state_change" with
        pending_state_changes :=
          removeFirstBy (stateChangeMatch cid e.time fp name value)
            sim.pending_state_changes })
    else .ok (false, sim)
  | .deterministicValue =>
    -- inherits `InternalEvent.proceed` (replay_event.py:245-248): `pass`,
    -- returning `None`, i.e. falsy.
    .ok (false, sim)

/-- `EventWatcher.run(simulation)` (replay_event.py:186-193), with the
wall clock made explicit: `fuel` is the number of `proceed` attempts the
run is observed for and the returned counter is the number of
`time.sleep(0.05)` calls performed before `proceed` returned a truthy
value.  `none` means the loop was still retrying after `fuel` attempts —
the source's loop has no deadline, so there is no other exit besides a
truthy `proceed` or an exception. -/
def eventWatcherRun (ev : Event) :
    Nat → Simulation → Nat → Option (Except PyError (Simulation × Nat))
  | 0, _, _ => none
  | fuel + 1, sim, sleeps =>
    match proceed ev sim with
    | .error e => some (.error e)
    | .ok (true, sim') => some (.ok (sim', sleeps))
    | .ok (false, sim') => eventWatcherRun ev fuel sim' (sleeps + 1)

/-- `EventDag._peek_seconds` (replay_event.py:33). -/
def peek_seconds : ℚ := 10

/-- `EventDag.peek` (replay_event.py:137-158).  The loop body reads the
variable `event` (`event2wait_time[event] = wait_time`), which is not in
scope — the loop variable is `current_event` — so whenever there are two
or more input events the first iteration raises `NameError`.  With
exactly one input event the loop body never runs and the local
`event2wait_time` dict gets the single last-event entry; the source then
*discards* that dict (nothing is stored on the DAG and the method returns
`None`); this model returns the dict as its observable value. -/
def peek (events : List Event) : Except PyError (List (String × ℚ)) :=
  if (events.filter (fun e => isInputEvent e.body)).length = 0 then .ok []
  else if 2 ≤ (events.filter (fun e => isInputEvent e.body)).length then
    .error (.nameError "event")
  else
    match events.getLast?, (events.filter (fun e => isInputEvent e.body)).getLast? with
    | some last, some lastInput =>
      .ok [(lastInput.label, last.time.as_float + peek_seconds)]
    | _, _ => .error (.indexError "list index out of range")

/-- An empty simulation: no switches, controllers, buffered packets,
pending messages, pending state changes, violations, and no dataplane
trace. -/
def simEmpty : Simulation := ⟨[], [], [], [], [], none, [], []⟩

/-- A `DataplaneDrop` whose fingerprint never has a matching buffered
packet in `simEmpty`, so its `proceed` returns falsy forever. -/
def dpDropNever : Event := ⟨"e9", ⟨0, 0⟩, [], .dataplaneDrop ⟨.str "fp"⟩⟩

/-- Truthy-`Done` / falsy-`NotYet` discrimination of a `proceed` result:
`true` exactly on `.ok (false, _)`, the "retry later" outcome. -/
def isNotYet (r : Except PyError (Bool × Simulation)) : Bool :=
  match r with
  | .ok (false, _) => true
  | _ => false

/-- A one-switch, one-connection simulation for the C7 witness. -/
def simC7 : Simulation :=
  ⟨[(1, ⟨[], [(("127.0.0.1", 8888), ⟨false⟩)]⟩)], [], [], [], [], none, [], []⟩

/-- The concrete `ControllerRecovery` event for the C1 round-trip check. -/
def crEvent : Event := ⟨"e7", ⟨5, 0⟩, [], .controllerRecovery ("127.0.0.1", 8899)⟩

/-- A `ControllerStateChange` JSON object carrying exactly the mandatory
keys plus the per-subtype keys of the spec's §6 table
(`controller_id`, `fingerprint`, `name`, `value`) — and no `dpid`. -/
def cscJsonNoDpid : List (String × Json) :=
  [("label", .str "e8"), ("time", .arr [.num 2, .num 0]),
   ("dependent_labels", .arr []),
   ("controller_id", .arr [.str "c1", .num 6633]),
   ("fingerprint", .str "fp"), ("name", .str "mastership"),
   ("value", .str "MASTER"), ("class", .str "ControllerStateChange")]

/-- The observable state of one intercepted connection's environment: the
god scheduler's pending queue and the messages actually handed to the
switch's true handler. -/
structure ConnState (Msg : Type) where
  god_pending : List (Int × ControllerId × Msg)
  delivered_to_switch : List Msg
deriving DecidableEq

/-- The externally triggered operations on a `DeferredOFConnection`
(entities.py:18-37): an OpenFlow message arriving from the controller
(`on_message_received`, rebound in `__init__` to
`insert_into_god_scheduler`), and the god scheduler calling back
`allow_message_receipt`. -/
inductive ConnOp (Msg : Type) where
  | receive (m : Msg) : ConnOp Msg
  | allow (m : Msg) : ConnOp Msg
deriving DecidableEq

/-- One step of a `DeferredOFConnection` with the given `dpid` and
controller id whose true handler was stored by `set_message_handler`:
`receive` forwards `(dpid, controller_id, ofp_msg, self)` to the god
scheduler — `insert_pending_message` is modelled from the spec (§4.5) as
a FIFO append — and does *not* touch the switch; `allow` invokes the
stored `true_on_message_handler` on the message (entities.py:35-37),
which is the only way a message reaches the switch. -/
def connStep {Msg : Type} (dpid : Int) (cid : ControllerId)
    (st : ConnState Msg) : ConnOp Msg → ConnState Msg
  | .receive m =>
    { st with god_pending := st.god_pending ++ [(dpid, cid, m)] }
  | .allow m =>
    { st with delivered_to_switch := st.delivered_to_switch ++ [m] }

/-- Run a sequence of connection operations. -/
def connRun {Msg : Type} (dpid : Int) (cid : ControllerId)
    (st : ConnState Msg) (ops : List (ConnOp Msg)) : ConnState Msg :=
  ops.foldl (connStep dpid cid) st

/-- The messages received from the controller in an operation sequence. -/
def receivedOf {Msg : Type} : List (ConnOp Msg) → List Msg
  | [] => []
  | .receive m :: t => m :: receivedOf t
  | .allow _ :: t => receivedOf t

/-- The messages the god scheduler allowed through in a sequence. -/
def allowedOf {Msg : Type} : List (ConnOp Msg) → List Msg
  | [] => []
  | .receive _ :: t => allowedOf t
  | .allow m :: t => m :: allowedOf t

/-- The DAG's label → event index (`_label2event`), as a derived view of
the ordered event list. -/
def label2event (d : List Event) (lbl : String) : Option Event :=
  d.find? (fun e => decide (e.label = lbl))

/-- The DAG's position index (`_event_to_index`), as a derived view of
the ordered event list, queried by label: positions are rebuilt dense
after every removal (spec §4.3). -/
def event_to_index (d : List Event) (lbl : String) : Option Nat :=
  match d with
  | [] => none
  | e :: t =>
    if e.label = lbl then some 0 else (event_to_index t lbl).map (· + 1)

lemma length_filter_lt_of_mem {α : Type} {p : α → Bool} {l : List α} {x : α}
    (hx : x ∈ l) (hpx : p x = false) : (l.filter p).length < l.length := by
  induction l with
  | nil => cases hx
  | cons y t ih =>
    rcases List.mem_cons.mp hx with rfl | hx'
    · have h1 := List.length_filter_le p t
      simp only [List.filter_cons, hpx, Bool.false_eq_true, if_false,
        List.length_cons]
      omega
    · cases hpy : p y
      · have h1 := ih hx'
        simp only [List.filter_cons, hpy, Bool.false_eq_true, if_false,
          List.length_cons]
        omega
      · have h1 := ih hx'
        simp only [List.filter_cons, hpy, if_true, List.length_cons]
        omega

/-- Modelled from the spec: the body of `EventDag._remove_event`
(replay_event.py:74-87) is syntactically invalid Python
(`list_idx = del self._event_to_index[event]`, and a membership test on
an event's own label list in place of the label index), so the behavior
is taken from §4.3/§9: delete the event (by its label) from the event
list and both (derived) indices, then recursively remove every
still-present event whose label appears in `dependent_labels`,
transitively.  The recursion is realized with an explicit worklist of
labels: pop a label; if it still resolves in the DAG, delete that event
and enqueue its `dependent_labels`; otherwise skip it. -/
def removeWorklist : List Event → List String → List Event
  | d, [] => d
  | d, lbl :: rest =>
    match h : d.find? (fun e => decide (e.label = lbl)) with
    | some ev =>
      removeWorklist (d.filter (fun e => !decide (e.label = lbl)))
        (rest ++ ev.dependent_labels)
    | none => removeWorklist d rest
termination_by d wl => (d.length, wl.length)
decreasing_by
  · exact Prod.Lex.left _ _
      (length_filter_lt_of_mem (List.mem_of_find?_eq_some h)
        (by rw [List.find?_some h]; rfl))
  · exact Prod.Lex.right _ (by simp)

/-- Modelled from the spec: `EventDag._remove_event(event)` — delete the
event's label from all three structures, then recursively remove its
dependents (see `removeWorklist`). -/
def remove_event_model (d : List Event) (e : Event) : List Event :=
  removeWorklist (d.filter (fun x => !decide (x.label = e.label)))
    e.dependent_labels

/-- The events of `ignored_portion` that `remove_events` actually prunes:
`isinstance(e, InputEvent) and type(e) not in self._recovery_types`
(replay_event.py:94-96). -/
def prunedRoots (ignored_portion : List Event) : List Event :=
  ignored_portion.filter (fun e => isInputEvent e.body && !isRecoveryType e.body)

/-- `EventDag.remove_events(ignored_portion)` (replay_event.py:89-101),
modelled from the spec (the underlying `_remove_event` is syntactically
invalid in the source): remove each input, non-recovery event of
`ignored_portion` together with its dependents.  The trailing
`self.peek()` does not change the event list (in the source it would
raise `NameError`; see `peek`). -/
def remove_events (d : List Event) (ignored_portion : List Event) :
    List Event :=
  (prunedRoots ignored_portion).foldl remove_event_model d

/-- The claim's transitive closure: a label is reachable from the pruned
roots if it labels a root, appears in a root's `dependent_labels`, or
appears in the `dependent_labels` of the (original) DAG's event for an
already-reachable label. -/
inductive ReachLbl (d : List Event) (roots : List Event) : String → Prop where
  | root (e : Event) (he : e ∈ roots) : ReachLbl d roots e.label
  | rootDep (e : Event) (he : e ∈ roots) (lbl : String)
      (hl : lbl ∈ e.dependent_labels) : ReachLbl d roots lbl
  | step (lbl' lbl : String) (ev : Event) (h1 : ReachLbl d roots lbl')
      (h2 : label2event d lbl' = some ev) (h3 : lbl ∈ ev.dependent_labels) :
      ReachLbl d roots lbl

/-- A removed-label set `R` is dependency-closed relative to the original
DAG, with the labels of `wl` still pending: every dependent of a removed
label's event is removed, pending, or absent from the original DAG. -/
def stepClosed (d0 : List Event) (R wl : List String) : Prop :=
  ∀ lbl ∈ R, ∀ ev, label2event d0 lbl = some ev →
    ∀ dep ∈ ev.dependent_labels, dep ∈ R ∨ dep ∈ wl ∨ label2event d0 dep = none

/-- A `SwitchFailure` whose `dependent_labels` names the matching
recovery (as `_mark_invalid_input_sequences` intends). -/
def E1 : Event := ⟨"e1", ⟨0, 0⟩, ["e2"], .switchFailure 1⟩

/-- The matching `SwitchRecovery`. -/
def E2 : Event := ⟨"e2", ⟨1, 0⟩, [], .switchRecovery 1⟩

/-- An unrelated `ControllerRecovery`. -/
def E3 : Event := ⟨"e3", ⟨2, 0⟩, [], .controllerRecovery ("c1", 6633)⟩

lemma cdiv_zero (i : Nat) : cdiv 0 i = 0 := by
  unfold cdiv
  rcases Nat.eq_zero_or_pos i with h | h
  · subst h; simp
  · exact Nat.div_eq_of_lt (by omega)

lemma cdiv_rec {m i : Nat} (hm : 0 < m) (hi : 0 < i) :
    cdiv m i = 1 + cdiv (m - i) i := by
  unfold cdiv
  rcases Nat.le_total m i with h | h
  · have h1 : m - i = 0 := by omega
    rw [h1]
    have h2 : (m + i - 1) / i = 1 := by
      apply Nat.div_eq_of_lt_le <;> omega
    have h3 : (0 + i - 1) / i = 0 := Nat.div_eq_of_lt (by omega)
    omega
  · have h1 : m + i - 1 = (m - i + i - 1) + i := by omega
    rw [h1, Nat.add_div_right _ hi]
    omega

lemma cdiv_le_of_le {m i c : Nat} (hi : 0 < i) (h : m ≤ i * c) :
    cdiv m i ≤ c := by
  unfold cdiv
  rw [Nat.div_le_iff_le_mul_add_pred hi]
  omega

lemma le_mul_cdiv {m k : Nat} (hk : 0 < k) : m ≤ k * cdiv m k := by
  unfold cdiv
  have h1 := Nat.div_add_mod (m + k - 1) k
  have h2 := Nat.mod_lt (m + k - 1) hk
  omega

lemma cdiv_pos {m k : Nat} (hm : 0 < m) (hk : 0 < k) : 0 < cdiv m k := by
  unfold cdiv
  rw [Nat.pos_iff_ne_zero, Ne, Nat.div_eq_zero_iff (by omega)]
  omega

lemma cdiv_cdiv_le {n k : Nat} (hn : 0 < n) (hk : 0 < k) :
    cdiv n (cdiv n k) ≤ k := by
  have h1 : 0 < cdiv n k := cdiv_pos hn hk
  exact cdiv_le_of_le h1 (by
    have := le_mul_cdiv (m := n) hk
    calc n ≤ k * cdiv n k := this
    _ = cdiv n k * k := Nat.mul_comm _ _)

lemma slice_flatten {α : Type} (events : List α) (start interval : Nat) :
    (events.drop start).take interval ++ events.drop (start + interval)
      = events.drop start := by
  have h1 : events.drop (start + interval) = (events.drop start).drop interval := by
    rw [List.drop_drop, Nat.add_comm]
  rw [h1, List.take_append_drop]

lemma slice_ne_nil {α : Type} (events : List α) {start interval : Nat}
    (hs : start < events.length) (hi : 0 < interval) :
    (events.drop start).take interval ≠ [] := by
  have h1 : 0 < ((events.drop start).take interval).length := by
    rw [List.length_take, List.length_drop]
    omega
  exact List.ne_nil_of_length_pos h1

/-- Once at least `k - 2` slices have been produced, the shrink branch can
never fire again, and the loop deterministically slices off `interval`
elements per iteration: it terminates with `cdiv (len - start) interval`
further slices, all non-empty, that concatenate to the unsliced suffix. -/
lemma splitLoop_post {α : Type} (events : List α) (k : Nat) :
    ∀ fuel start interval splits,
      events.length - start < fuel → 0 < interval → k - 2 ≤ splits.length →
      ∃ t, splitLoop events k fuel start interval splits = some (splits ++ t) ∧
        t.flatten = events.drop start ∧ (∀ l ∈ t, l ≠ []) ∧
        t.length = cdiv (events.length - start) interval := by
  intro fuel
  induction fuel with
  | zero => intro start interval splits hf; omega
  | succ fuel ih =>
    intro start interval splits hf hi hs
    by_cases hlt : start < events.length
    · have hcond : ¬(events.length ≤ (start + interval) + interval ∧
          (splits ++ [(events.drop start).take interval]).length = k - 2) := by
        rintro ⟨-, h2⟩
        rw [List.length_append, List.length_singleton] at h2
        omega
      rw [splitLoop, if_pos hlt, if_neg hcond]
      obtain ⟨t, hloop, hflat, hne, hcount⟩ :=
        ih (start + interval) interval
          (splits ++ [(events.drop start).take interval])
          (by omega) hi
          (by rw [List.length_append, List.length_singleton]; omega)
      refine ⟨(events.drop start).take interval :: t, ?_, ?_, ?_, ?_⟩
      · rw [hloop, List.append_assoc, List.singleton_append]
      · rw [List.flatten_cons, hflat, slice_flatten]
      · intro l hl
        rcases List.mem_cons.mp hl with h | h
        · subst h; exact slice_ne_nil events hlt hi
        · exact hne l h
      · have h3 : events.length - (start + interval)
            = (events.length - start) - interval := by omega
        rw [h3] at hcount
        have h4 := cdiv_rec (m := events.length - start) (i := interval)
          (by omega) hi
        rw [List.length_cons]
        omega
    · rw [splitLoop, if_neg hlt]
      refine ⟨[], by rw [List.append_nil], ?_, (by intro l hl; cases hl), ?_⟩
      · rw [List.flatten_nil, List.drop_eq_nil_of_le (by omega)]
      · rw [List.length_nil]
        have h3 : events.length - start = 0 := by omega
        rw [h3, cdiv_zero]

/-- With `interval = 1`, the loop slices off single elements; as long as
the shrink branch never fires (the `hsafe` side condition, which holds on
every state reachable from a top-level call), it terminates with one
slice per remaining element. -/
lemma splitLoop_one {α : Type} (events : List α) (k : Nat) :
    ∀ fuel start splits,
      events.length - start < fuel →
      (∀ j : Nat, splits.length + j + 1 = k - 2 →
        start + j + 2 < events.length ∨ events.length ≤ start + j) →
      ∃ t, splitLoop events k fuel start 1 splits = some (splits ++ t) ∧
        t.flatten = events.drop start ∧ (∀ l ∈ t, l ≠ []) ∧
        t.length = events.length - start := by
  intro fuel
  induction fuel with
  | zero => intro start splits hf; omega
  | succ fuel ih =>
    intro start splits hf hsafe
    by_cases hlt : start < events.length
    · have hcond : ¬(events.length ≤ (start + 1) + 1 ∧
          (splits ++ [(events.drop start).take 1]).length = k - 2) := by
        rintro ⟨h1, h2⟩
        rw [List.length_append, List.length_singleton] at h2
        rcases hsafe 0 (by omega) with h | h <;> omega
      rw [splitLoop, if_pos hlt, if_neg hcond]
      obtain ⟨t, hloop, hflat, hne, hcount⟩ :=
        ih (start + 1) (splits ++ [(events.drop start).take 1])
          (by omega)
          (by
            intro j hj
            rw [List.length_append, List.length_singleton] at hj
            rcases hsafe (j + 1) (by omega) with h | h
            · left; omega
            · right; omega)
      refine ⟨(events.drop start).take 1 :: t, ?_, ?_, ?_, ?_⟩
      · rw [hloop, List.append_assoc, List.singleton_append]
      · rw [List.flatten_cons, hflat, slice_flatten]
      · intro l hl
        rcases List.mem_cons.mp hl with h | h
        · subst h; exact slice_ne_nil events hlt (by omega)
        · exact hne l h
      · rw [List.length_cons, hcount]; omega
    · rw [splitLoop, if_neg hlt]
      refine ⟨[], by rw [List.append_nil], ?_, (by intro l hl; cases hl), ?_⟩
      · rw [List.flatten_nil, List.drop_eq_nil_of_le (by omega)]
      · rw [List.length_nil]; omega

/-- Before the shrink branch has fired (fewer than `k - 2` slices,
`interval ≥ 2`), the loop keeps the budget invariant
`|splits| + cdiv (len - start) interval ≤ k`; whether or not the branch
eventually fires, it terminates with at most `k` slices in total, all
non-empty, concatenating to the unsliced suffix. -/
lemma splitLoop_pre {α : Type} (events : List α) (k : Nat) :
    ∀ fuel start interval splits,
      events.length - start < fuel → 2 ≤ interval →
      splits.length + 3 ≤ k →
      splits.length + cdiv (events.length - start) interval ≤ k →
      ∃ t, splitLoop events k fuel start interval splits = some (splits ++ t) ∧
        t.flatten = events.drop start ∧ (∀ l ∈ t, l ≠ []) ∧
        splits.length + t.length ≤ k := by
  intro fuel
  induction fuel with
  | zero => intro start interval splits hf; omega
  | succ fuel ih =>
    intro start interval splits hf hi hs hbudget
    by_cases hlt : start < events.length
    swap
    · rw [splitLoop, if_neg hlt]
      refine ⟨[], by rw [List.append_nil], ?_, (by intro l hl; cases hl),
        (by rw [List.length_nil]; omega)⟩
      rw [List.flatten_nil, List.drop_eq_nil_of_le (by omega)]
    have hrec : cdiv (events.length - start) interval
        = 1 + cdiv (events.length - (start + interval)) interval := by
      rw [cdiv_rec (by omega) (by omega)]
      congr 1
      congr 1
      omega
    by_cases hcond : events.length ≤ (start + interval) + interval ∧
        (splits ++ [(events.drop start).take interval]).length = k - 2
    · -- the shrink branch fires: switch to the post phase with interval-1
      rw [splitLoop, if_pos hlt, if_pos hcond]
      have hlen : splits.length + 1 = k - 2 := by
        have := hcond.2
        rwa [List.length_append, List.length_singleton] at this
      obtain ⟨t, hloop, hflat, hne, hcount⟩ :=
        splitLoop_post events k fuel (start + interval) (interval - 1)
          (splits ++ [(events.drop start).take interval])
          (by omega) (by omega)
          (by rw [List.length_append, List.length_singleton]; omega)
      refine ⟨(events.drop start).take interval :: t, ?_, ?_, ?_, ?_⟩
      · rw [hloop, List.append_assoc, List.singleton_append]
      · rw [List.flatten_cons, hflat, slice_flatten]
      · intro l hl
        rcases List.mem_cons.mp hl with h | h
        · subst h; exact slice_ne_nil events hlt (by omega)
        · exact hne l h
      · have hbound : cdiv (events.length - (start + interval)) (interval - 1) ≤ 2 := by
          apply cdiv_le_of_le (by omega)
          have := hcond.1
          omega
        rw [List.length_cons]
        omega
    · rw [splitLoop, if_pos hlt, if_neg hcond]
      by_cases hsub : splits.length + 4 ≤ k
      · -- still in the pre phase
        obtain ⟨t, hloop, hflat, hne, hcount⟩ :=
          ih (start + interval) interval
            (splits ++ [(events.drop start).take interval])
            (by omega) hi
            (by rw [List.length_append, List.length_singleton]; omega)
            (by rw [List.length_append, List.length_singleton]; omega)
        refine ⟨(events.drop start).take interval :: t, ?_, ?_, ?_, ?_⟩
        · rw [hloop, List.append_assoc, List.singleton_append]
        · rw [List.flatten_cons, hflat, slice_flatten]
        · intro l hl
          rcases List.mem_cons.mp hl with h | h
          · subst h; exact slice_ne_nil events hlt (by omega)
          · exact hne l h
        · rw [List.length_append, List.length_singleton] at hcount
          rw [List.length_cons]
          omega
      · -- exactly k-2 slices after this one: switch to the post phase
        obtain ⟨t, hloop, hflat, hne, hcount⟩ :=
          splitLoop_post events k fuel (start + interval) interval
            (splits ++ [(events.drop start).take interval])
            (by omega) (by omega)
            (by rw [List.length_append, List.length_singleton]; omega)
        refine ⟨(events.drop start).take interval :: t, ?_, ?_, ?_, ?_⟩
        · rw [hloop, List.append_assoc, List.singleton_append]
        · rw [List.flatten_cons, hflat, slice_flatten]
        · intro l hl
          rcases List.mem_cons.mp hl with h | h
          · subst h; exact slice_ne_nil events hlt (by omega)
          · exact hne l h
        · rw [List.length_cons]
          omega

lemma assocFind_update_self {κ ν : Type} [DecidableEq κ]
    (l : List (κ × ν)) (k : κ) (f : ν → ν) :
    assocFind (assocUpdate l k f) k = (assocFind l k).map f := by
  induction l with
  | nil => rfl
  | cons x t ih =>
    obtain ⟨k', v⟩ := x
    by_cases hk : k' = k
    · subst hk
      simp [assocUpdate, assocFind]
    · have hd : (decide (k' = k)) = false := by simp [hk]
      simp only [assocUpdate, if_neg hk, assocFind, List.find?_cons, hd]
      simp only [assocFind] at ih
      exact ih

lemma get_switch_some {sim : Simulation} {dpid : Int} {sw : Switch}
    (h : sim.get_switch dpid = .ok sw) :
    assocFind sim.switches dpid = some sw := by
  revert h
  unfold Simulation.get_switch
  cases hh : assocFind sim.switches dpid
  · intro h
    simp at h
  · intro h
    simp only [Except.ok.injEq] at h
    rw [h]

lemma get_connection_some {sw : Switch} {cid : ControllerId}
    {conn : Connection} (h : sw.get_connection cid = .ok conn) :
    assocFind sw.uuid2connection cid = some conn := by
  revert h
  unfold Switch.get_connection
  cases hh : assocFind sw.uuid2connection cid
  · intro h
    simp at h
  · intro h
    simp only [Except.ok.injEq] at h
    rw [h]

lemma set_blocked_resolves {sim : Simulation} {dpid : Int}
    {cid : ControllerId} {sw : Switch} {conn : Connection} (b : Bool)
    (h1 : sim.get_switch dpid = .ok sw)
    (h2 : sw.get_connection cid = .ok conn) :
    ∃ sw' conn',
      (sim.set_blocked dpid cid b).get_switch dpid = .ok sw' ∧
      sw'.get_connection cid = .ok conn' ∧
      conn'.currently_blocked = b := by
  have hsw := get_switch_some h1
  have hconn := get_connection_some h2
  refine ⟨Switch.mk sw.ports
      (assocUpdate sw.uuid2connection cid (fun _ => Connection.mk b)),
    Connection.mk b, ?_, ?_, rfl⟩
  · unfold Simulation.set_blocked Simulation.get_switch
    rw [assocFind_update_self, hsw]
    rfl
  · unfold Switch.get_connection
    rw [assocFind_update_self, hconn]
    rfl

lemma find_label_filter (d : List Event) (R : List String) (lbl : String)
    (hl : lbl ∉ R) :
    (d.filter (fun e => !decide (e.label ∈ R))).find?
        (fun e => decide (e.label = lbl))
      = d.find? (fun e => decide (e.label = lbl)) := by
  induction d with
  | nil => rfl
  | cons x t ih =>
    rw [List.filter_cons]
    by_cases hx : x.label = lbl
    · have hkeep : (!decide (x.label ∈ R)) = true := by
        rw [hx]
        simp [hl]
      rw [hkeep]
      simp only [if_true]
      rw [List.find?_cons, List.find?_cons]
      have hpx : decide (x.label = lbl) = true := by simp [hx]
      rw [hpx]
    · cases hR : (!decide (x.label ∈ R))
      · simp only [if_false, Bool.false_eq_true]
        rw [ih]
        rw [List.find?_cons]
        have hpx : decide (x.label = lbl) = false := by simp [hx]
        rw [hpx]
      · simp only [if_true]
        rw [List.find?_cons, List.find?_cons]
        have hpx : decide (x.label = lbl) = false := by simp [hx]
        rw [hpx]
        exact ih

lemma removeWorklist_nil (d : List Event) : removeWorklist d [] = d := by
  rw [removeWorklist.eq_def]

lemma removeWorklist_cons_some {d : List Event} {lbl : String}
    {rest : List String} {ev : Event}
    (h : d.find? (fun e => decide (e.label = lbl)) = some ev) :
    removeWorklist d (lbl :: rest)
      = removeWorklist (d.filter (fun e => !decide (e.label = lbl)))
          (rest ++ ev.dependent_labels) := by
  conv_lhs => rw [removeWorklist.eq_def]
  split
  · rename_i h2
    cases h2
  · rename_i lbl2 rest2 h2
    injection h2 with e1 e2
    subst e1
    subst e2
    split
    · rename_i ev2 h3
      rw [h] at h3
      injection h3 with h3
      rw [h3]
    · rename_i h3
      rw [h] at h3
      cases h3

lemma removeWorklist_cons_none {d : List Event} {lbl : String}
    {rest : List String}
    (h : d.find? (fun e => decide (e.label = lbl)) = none) :
    removeWorklist d (lbl :: rest) = removeWorklist d rest := by
  conv_lhs => rw [removeWorklist.eq_def]
  split
  · rename_i h2
    cases h2
  · rename_i lbl2 rest2 h2
    injection h2 with e1 e2
    subst e1
    subst e2
    split
    · rename_i ev2 h3
      rw [h] at h3
      cases h3
    · rfl

/-- The worklist removal, run to completion, extends the removed-label
set `R` to some `R'` such that: the result is the original DAG filtered
by `R'`; every worklist label is removed or was never present; closedness
of the removed set is preserved (with no labels left pending); and the
removed set stays inside any `P` that contains `R` and the worklist and
is closed under dependency steps of the original DAG. -/
lemma removeWorklist_spec (d0 : List Event) :
    ∀ (d : List Event) (wl : List String) (R : List String),
      d = d0.filter (fun e => !decide (e.label ∈ R)) →
      ∃ R' : List String,
        removeWorklist d wl = d0.filter (fun e => !decide (e.label ∈ R')) ∧
        (∀ l ∈ R, l ∈ R') ∧
        (∀ l ∈ wl, l ∈ R' ∨ label2event d0 l = none) ∧
        (stepClosed d0 R wl → stepClosed d0 R' []) ∧
        (∀ P : String → Prop, (∀ l ∈ R, P l) → (∀ l ∈ wl, P l) →
          (∀ lbl ev, P lbl → label2event d0 lbl = some ev →
            ∀ dep ∈ ev.dependent_labels, P dep) →
          ∀ l ∈ R', P l) := by
  intro d wl
  induction d, wl using removeWorklist.induct with
  | case1 d =>
    intro R hrep
    refine ⟨R, ?_, fun l hl => hl, ?_, ?_, ?_⟩
    · rw [removeWorklist_nil]
      exact hrep
    · intro l hl
      cases hl
    · intro hc lbl hl ev hev dep hdep
      rcases hc lbl hl ev hev dep hdep with h | h | h
      · exact Or.inl h
      · cases h
      · exact Or.inr (Or.inr h)
    · intro P hr _ _ l hl
      exact hr l hl
  | case2 d lbl rest ev hfind ih =>
    intro R hrep
    have hmem : ev ∈ d := List.mem_of_find?_eq_some hfind
    have hevl : ev.label = lbl := by
      have h2 := List.find?_some (p := fun (e : Event) => decide (e.label = lbl)) hfind
      simpa using h2
    have hlblR : lbl ∉ R := by
      rw [hrep] at hmem
      have h2 := (List.mem_filter.mp hmem).2
      rw [hevl] at h2
      simpa using h2
    have hfind0 : label2event d0 lbl = some ev := by
      unfold label2event
      rw [← find_label_filter d0 R lbl hlblR, ← hrep]
      exact hfind
    have hrep' : d.filter (fun e => !decide (e.label = lbl))
        = d0.filter (fun e => !decide (e.label ∈ (lbl :: R))) := by
      rw [hrep, List.filter_filter]
      apply List.filter_congr
      intro x _
      simp only [List.mem_cons]
      by_cases h1 : x.label = lbl <;> by_cases h2 : x.label ∈ R <;>
        simp [h1, h2]
    obtain ⟨R', hrep'', hsub, hwl, hclosed, hP⟩ := ih (lbl :: R) hrep'
    refine ⟨R', ?_, ?_, ?_, ?_, ?_⟩
    · rw [removeWorklist_cons_some hfind]
      exact hrep''
    · intro l hl
      exact hsub l (List.mem_cons_of_mem _ hl)
    · intro l hl
      rcases List.mem_cons.mp hl with rfl | hl'
      · exact Or.inl (hsub l (List.mem_cons_self _ _))
      · exact hwl l (List.mem_append_left _ hl')
    · intro hc
      apply hclosed
      intro l hlR ev2 hev2 dep hdep
      rcases List.mem_cons.mp hlR with rfl | hlR'
      · rw [hfind0] at hev2
        injection hev2 with hev2
        subst hev2
        exact Or.inr (Or.inl (List.mem_append_right _ hdep))
      · rcases hc l hlR' ev2 hev2 dep hdep with h | h | h
        · exact Or.inl (List.mem_cons_of_mem _ h)
        · rcases List.mem_cons.mp h with rfl | h'
          · exact Or.inl (List.mem_cons_self _ _)
          · exact Or.inr (Or.inl (List.mem_append_left _ h'))
        · exact Or.inr (Or.inr h)
    · intro P hr hwlP hstep
      apply hP P
      · intro l hl
        rcases List.mem_cons.mp hl with rfl | hl'
        · exact hwlP l (List.mem_cons_self _ _)
        · exact hr l hl'
      · intro l hl
        rcases List.mem_append.mp hl with h | h
        · exact hwlP l (List.mem_cons_of_mem _ h)
        · exact hstep lbl ev (hwlP lbl (List.mem_cons_self _ _)) hfind0 l h
      · exact hstep
  | case3 d lbl rest hfind ih =>
    intro R hrep
    have hor : lbl ∈ R ∨ label2event d0 lbl = none := by
      by_cases hR : lbl ∈ R
      · exact Or.inl hR
      · right
        unfold label2event
        rw [← find_label_filter d0 R lbl hR, ← hrep]
        exact hfind
    obtain ⟨R', hrep'', hsub, hwl, hclosed, hP⟩ := ih R hrep
    refine ⟨R', ?_, hsub, ?_, ?_, ?_⟩
    · rw [removeWorklist_cons_none hfind]
      exact hrep''
    · intro l hl
      rcases List.mem_cons.mp hl with rfl | hl'
      · rcases hor with h | h
        · exact Or.inl (hsub l h)
        · exact Or.inr h
      · exact hwl l hl'
    · intro hc
      apply hclosed
      intro l hlR ev2 hev2 dep hdep
      rcases hc l hlR ev2 hev2 dep hdep with h | h | h
      · exact Or.inl h
      · rcases List.mem_cons.mp h with rfl | h'
        · rcases hor with h2 | h2
          · exact Or.inl h2
          · exact Or.inr (Or.inr h2)
        · exact Or.inr (Or.inl h')
      · exact Or.inr (Or.inr h)
    · intro P hr hwlP hstep
      exact hP P hr (fun l hl => hwlP l (List.mem_cons_of_mem _ hl)) hstep

lemma event_to_index_eq_none {d : List Event} {lbl : String}
    (h : ∀ x ∈ d, x.label ≠ lbl) : event_to_index d lbl = none := by
  induction d with
  | nil => rfl
  | cons e t ih =>
    rw [event_to_index, if_neg (h e (List.mem_cons_self _ _)),
      ih (fun x hx => h x (List.mem_cons_of_mem _ hx))]
    rfl

/-- Folding `_remove_event` over a list of root events: the removed set
grows root by root, each root's label and direct dependents are handled,
dependency-closedness is maintained, and the removed set stays inside
any dependency-closed predicate containing the roots. -/
lemma remove_events_fold_spec (d0 : List Event) :
    ∀ (roots : List Event) (d : List Event) (R : List String),
      d = d0.filter (fun e => !decide (e.label ∈ R)) →
      stepClosed d0 R [] →
      (∀ e ∈ roots, ∀ r, label2event d0 e.label = some r →
        r.dependent_labels = e.dependent_labels) →
      ∃ R' : List String,
        roots.foldl remove_event_model d
          = d0.filter (fun e => !decide (e.label ∈ R')) ∧
        (∀ l ∈ R, l ∈ R') ∧
        (∀ e ∈ roots, e.label ∈ R') ∧
        (∀ e ∈ roots, ∀ dep ∈ e.dependent_labels,
          dep ∈ R' ∨ label2event d0 dep = none) ∧
        stepClosed d0 R' [] ∧
        (∀ P : String → Prop, (∀ l ∈ R, P l) →
          (∀ e ∈ roots, P e.label ∧ ∀ dep ∈ e.dependent_labels, P dep) →
          (∀ lbl ev, P lbl → label2event d0 lbl = some ev →
            ∀ dep ∈ ev.dependent_labels, P dep) →
          ∀ l ∈ R', P l) := by
  intro roots
  induction roots with
  | nil =>
    intro d R hrep hclosed _
    refine ⟨R, ?_, fun l hl => hl, ?_, ?_, hclosed, ?_⟩
    · rw [List.foldl_nil]
      exact hrep
    · intro e he
      cases he
    · intro e he
      cases he
    · intro P hr _ _ l hl
      exact hr l hl
  | cons e roots' ih =>
    intro d R hrep hclosed hroots
    have hrep1 : d.filter (fun x => !decide (x.label = e.label))
        = d0.filter (fun x => !decide (x.label ∈ (e.label :: R))) := by
      rw [hrep, List.filter_filter]
      apply List.filter_congr
      intro x _
      simp only [List.mem_cons]
      by_cases h1 : x.label = e.label <;> by_cases h2 : x.label ∈ R <;>
        simp [h1, h2]
    obtain ⟨R1, hrep1', hsub1, hwl1, hclosed1, hP1⟩ :=
      removeWorklist_spec d0 (d.filter (fun x => !decide (x.label = e.label)))
        e.dependent_labels (e.label :: R) hrep1
    have hclosed1' : stepClosed d0 R1 [] := by
      apply hclosed1
      intro l hl ev hev dep hdep
      rcases List.mem_cons.mp hl with rfl | hl'
      · have hdeps := hroots e (List.mem_cons_self _ _) ev hev
        rw [hdeps] at hdep
        exact Or.inr (Or.inl hdep)
      · rcases hclosed l hl' ev hev dep hdep with h | h | h
        · exact Or.inl (List.mem_cons_of_mem _ h)
        · cases h
        · exact Or.inr (Or.inr h)
    obtain ⟨R', hrep', hsub', hlbls', hdeps', hclosed', hP'⟩ :=
      ih (removeWorklist (d.filter (fun x => !decide (x.label = e.label)))
            e.dependent_labels) R1 hrep1' hclosed1'
        (fun e' he' => hroots e' (List.mem_cons_of_mem _ he'))
    refine ⟨R', ?_, ?_, ?_, ?_, hclosed', ?_⟩
    · rw [List.foldl_cons]
      exact hrep'
    · intro l hl
      exact hsub' l (hsub1 l (List.mem_cons_of_mem _ hl))
    · intro e' he'
      rcases List.mem_cons.mp he' with rfl | he''
      · exact hsub' e'.label (hsub1 e'.label (List.mem_cons_self _ _))
      · exact hlbls' e' he''
    · intro e' he' dep hdep
      rcases List.mem_cons.mp he' with rfl | he''
      · rcases hwl1 dep hdep with h | h
        · exact Or.inl (hsub' dep h)
        · exact Or.inr h
      · exact hdeps' e' he'' dep hdep
    · intro P hr hPe hstep
      apply hP' P
      · apply hP1 P
        · intro l hl
          rcases List.mem_cons.mp hl with rfl | hl'
          · exact (hPe e (List.mem_cons_self _ _)).1
          · exact hr l hl'
        · exact (hPe e (List.mem_cons_self _ _)).2
        · exact hstep
      · intro e' he'
        exact hPe e' (List.mem_cons_of_mem _ he')
      · exact hstep

/-- Case analysis on a single reachability step (used to refute
reachability on concrete DAGs). -/
lemma reach_elim {d0 roots : List Event} {lbl : String}
    (h : ReachLbl d0 roots lbl) :
    (∃ e ∈ roots, e.label = lbl) ∨
    (∃ e ∈ roots, lbl ∈ e.dependent_labels) ∨
    (∃ ev ∈ d0, lbl ∈ ev.dependent_labels) := by
  cases h with
  | root e he => exact Or.inl ⟨e, he, rfl⟩
  | rootDep e he lbl hl => exact Or.inr (Or.inl ⟨e, he, hl⟩)
  | step lbl' lbl ev h1 h2 h3 =>
    exact Or.inr (Or.inr ⟨ev, List.mem_of_find?_eq_some h2, h3⟩)

/-- C3 (amended): for every event list and every `split_ways` with
`1 ≤ split_ways ≤ len(events)`, `split_inputs` terminates and returns a
list of **at most** `split_ways` slices (not always exactly `split_ways`,
see the counterexample), each non-empty, whose concatenation is the
original event list; for a non-empty event list and `split_ways` outside
that range it raises `ValueError`.  (For an empty event list the source
returns `[[]]` before the range check, for every `split_ways`.) -/
theorem claim_C3_amended {α : Type} :
    (∀ (events : List α) (split_ways : Int),
      1 ≤ split_ways → split_ways ≤ (events.length : Int) →
      ∃ s, split_inputs events split_ways = some (.ok s) ∧
        s.flatten = events ∧ (∀ l ∈ s, l ≠ []) ∧
        (s.length : Int) ≤ split_ways) ∧
    (∀ (events : List α) (split_ways : Int),
      events ≠ [] → (split_ways < 1 ∨ (events.length : Int) < split_ways) →
      split_inputs events split_ways
        = some (.error (.valueError "Invalid split ways"))) := by
  constructor
  · intro events kk h1 h2
    have hn : events.length ≠ 0 := by omega
    by_cases hk1 : kk = 1
    · subst hk1
      refine ⟨[events], ?_, ?_, ?_, ?_⟩
      · unfold split_inputs
        rw [if_neg hn, if_pos rfl]
      · simp
      · intro l hl
        rcases List.mem_singleton.mp hl with rfl
        intro hnil
        subst hnil
        simp at hn
      · simp
    · have hk2 : 2 ≤ kk.toNat := by omega
      have hk3 : kk.toNat ≤ events.length := by omega
      have hrange : ¬(kk < 1 ∨ (events.length : Int) < kk) := by omega
      have hipos : 0 < cdiv events.length kk.toNat := cdiv_pos (by omega) (by omega)
      have hcc : cdiv events.length (cdiv events.length kk.toNat) ≤ kk.toNat :=
        cdiv_cdiv_le (by omega) (by omega)
      have hunf : split_inputs events kk
          = (splitLoop events kk.toNat (events.length + 1) 0
              (cdiv events.length kk.toNat) []).map .ok := by
        unfold split_inputs
        rw [if_neg hn, if_neg hk1, if_neg hrange]
      by_cases hkk2 : kk.toNat ≤ 2
      · -- k = 2: the shrink branch can never fire, post phase from the start
        obtain ⟨t, hloop, hflat, hne, hcount⟩ :=
          splitLoop_post events kk.toNat (events.length + 1) 0
            (cdiv events.length kk.toNat) [] (by omega) hipos (by omega)
        rw [List.nil_append] at hloop
        refine ⟨t, ?_, ?_, hne, ?_⟩
        · rw [hunf, hloop]; rfl
        · rw [hflat, List.drop_zero]
        · rw [Nat.sub_zero] at hcount
          omega
      · by_cases hint : 2 ≤ cdiv events.length kk.toNat
        · -- interval ≥ 2 and k ≥ 3: pre phase
          obtain ⟨t, hloop, hflat, hne, hcount⟩ :=
            splitLoop_pre events kk.toNat (events.length + 1) 0
              (cdiv events.length kk.toNat) [] (by omega) hint
              (by rw [List.length_nil]; omega)
              (by rw [List.length_nil, Nat.sub_zero]; omega)
          rw [List.nil_append] at hloop
          rw [List.length_nil] at hcount
          refine ⟨t, ?_, ?_, hne, ?_⟩
          · rw [hunf, hloop]; rfl
          · rw [hflat, List.drop_zero]
          · omega
        · -- interval = 1, so len = k: one element per slice, no shrink
          have hone : cdiv events.length kk.toNat = 1 := by omega
          have hlen : events.length ≤ kk.toNat := by
            have := le_mul_cdiv (m := events.length) (k := kk.toNat) (by omega)
            rw [hone, Nat.mul_one] at this
            exact this
          obtain ⟨t, hloop, hflat, hne, hcount⟩ :=
            splitLoop_one events kk.toNat (events.length + 1) 0 []
              (by omega)
              (by
                intro j hj
                rw [List.length_nil] at hj
                left
                omega)
          rw [List.nil_append] at hloop
          refine ⟨t, ?_, ?_, hne, ?_⟩
          · rw [hunf, hone, hloop]; rfl
          · rw [hflat, List.drop_zero]
          · rw [Nat.sub_zero] at hcount
            omega
  · intro events kk hne hrange
    have hn : events.length ≠ 0 := by
      intro h
      exact hne (List.length_eq_zero.mp h)
    have hpos : 0 < events.length := by omega
    have hk1 : kk ≠ 1 := by omega
    unfold split_inputs
    rw [if_neg hn, if_neg hk1, if_pos hrange]

/-- C3 counterexample: on 7 events with `split_ways = 5` the source
returns only 4 slices (sized 2,2,2,1), refuting "returns exactly `k`
lists" for `1 ≤ k ≤ len(events)`. -/
theorem claim_C3_counterexample :
    split_inputs (List.range 7) (5 : Int)
      = some (.ok [[0, 1], [2, 3], [4, 5], [6]]) ∧
    ([[0, 1], [2, 3], [4, 5], [6]] : List (List Nat)).length ≠ 5 :=
  ⟨rfl, by decide⟩

/-- Witness for C3 (amended) at a concrete input: 3 events split 2 ways,
and the out-of-range error at `split_ways = 7`. -/
theorem claim_C3_witness :
    (∃ s, split_inputs [10, 20, 30] (2 : Int) = some (.ok s) ∧
      s.flatten = [10, 20, 30] ∧ (∀ l ∈ s, l ≠ []) ∧
      (s.length : Int) ≤ 2) ∧
    split_inputs [10, 20, 30] (7 : Int)
      = some (.error (.valueError "Invalid split ways")) :=
  ⟨claim_C3_amended.1 [10, 20, 30] 2 (by decide) (by decide),
   claim_C3_amended.2 [10, 20, 30] 7 (by decide) (by decide)⟩

/-- C4 counterexample: after 400 `proceed` attempts — 400 sleeps of 50 ms,
i.e. ≈20 s of wall clock, well past the ≈10 s `peek`-derived slack the
claim names as the deadline — the replay loop for a never-matching
`DataplaneDrop` is *still retrying*: it has neither skipped the event nor
raised, because `EventWatcher.run` has no timeout handling at all. -/
theorem claim_C4_counterexample :
    eventWatcherRun dpDropNever 400 simEmpty 0 = none := rfl

/-- C4 (amended): `proceed` is retried with a 50 ms sleep after each
non-Done result, but with **no** deadline: for **every** event — internal
or input — whose `proceed` never returns Done (and never raises), the
replay loop is still retrying after any number of attempts, from any
starting state and sleep count.  In particular a timed-out InternalEvent
is never skipped and a timed-out InputEvent is never declared fatal,
because no timeout handling exists in `EventWatcher.run`. -/
theorem claim_C4_amended :
    ∀ (e : Event), (∀ s : Simulation, isNotYet (proceed e s) = true) →
      ∀ (fuel : Nat) (sim : Simulation) (sleeps : Nat),
        eventWatcherRun e fuel sim sleeps = none := by
  intro e h fuel
  induction fuel with
  | zero => intro sim sleeps; rfl
  | succ n ih =>
    intro sim sleeps
    have hs := h sim
    rw [eventWatcherRun]
    cases hp : proceed e sim with
    | error err =>
      rw [hp] at hs
      simp [isNotYet] at hs
    | ok p =>
      obtain ⟨b, s'⟩ := p
      cases b
      · exact ih s' (sleeps + 1)
      · rw [hp] at hs
        simp [isNotYet] at hs

/-- Witness for C4 (amended) at a concrete event whose `proceed` is never
Done on any state: `PolicyChange` — which is an InputEvent, so this also
exhibits an input event that is retried forever rather than ever being
declared fatal. -/
theorem claim_C4_witness :
    isInputEvent (Ev.policyChange "x") = true ∧
    eventWatcherRun ⟨"w4", ⟨0, 0⟩, [], .policyChange "x"⟩ 500 simC7 0
      = none :=
  ⟨rfl,
   claim_C4_amended ⟨"w4", ⟨0, 0⟩, [], .policyChange "x"⟩ (fun _ => rfl)
     500 simC7 0⟩

/-- C6: `peek` on a DAG with two input events raises
`NameError` (`event2wait_time[event]` with `event` out of scope,
replay_event.py:155); and even in the one-input case where the dict is
computed, the source stores it nowhere.  The second conjunct shows the
computed (and then discarded) wait time for a single input event:
`time(last_event) + peek_seconds`. -/
theorem claim_C6_peek_namerror :
    peek [⟨"e1", ⟨0, 0⟩, [], .switchFailure 1⟩,
          ⟨"e2", ⟨1, 0⟩, [], .switchRecovery 1⟩]
      = .error (.nameError "event") ∧
    peek [⟨"e1", ⟨0, 0⟩, [], .switchFailure 1⟩,
          ⟨"e2", ⟨3, 0⟩, [], .controlMessageReceive 1 ("c", 1) ⟨.str "m"⟩⟩]
      = .ok [("e1", 13)] :=
  ⟨rfl, by norm_num [peek, SyncTime.as_float, peek_seconds, isInputEvent, List.filter, List.find?]⟩

/-- C8 counterexample: `PolicyChange` *is* an InputEvent, and its
`proceed` (an unimplemented `pass`, replay_event.py:470-472) returns
`None` — falsy, i.e. NotYet — so an InputEvent does return NotYet,
refuting "only InternalEvents ever return it". -/
theorem claim_C8_counterexample :
    isInputEvent (Ev.policyChange "install_acl") = true ∧
    proceed ⟨"e5", ⟨0, 0⟩, [], .policyChange "install_acl"⟩ simEmpty
      = .ok (false, simEmpty) :=
  ⟨rfl, rfl⟩

/-- C8 (amended): every InputEvent subtype **except `PolicyChange`**
never returns NotYet from `proceed`: on every simulation state it either
returns Done or raises; `PolicyChange.proceed` is unimplemented (`pass`)
and returns a falsy `None`, which the replay loop would retry forever. -/
theorem claim_C8_amended :
    ∀ (e : Event) (sim : Simulation),
      isInputEvent e.body = true →
      (∀ rt, e.body ≠ Ev.policyChange rt) →
      isNotYet (proceed e sim) = false := by
  intro e sim hinp hnp
  obtain ⟨lbl, t, dl, b⟩ := e
  cases b with
  | switchFailure dpid =>
    cases h : sim.get_switch dpid <;> simp [proceed, h, isNotYet]
  | switchRecovery dpid =>
    cases h : sim.get_switch dpid <;> simp [proceed, h, isNotYet]
  | linkFailure sd sp ed ep =>
    cases h : get_link sim sd sp ed ep <;> simp [proceed, h, isNotYet]
  | linkRecovery sd sp ed ep =>
    cases h : get_link sim sd sp ed ep <;> simp [proceed, h, isNotYet]
  | controllerFailure cid =>
    cases h : sim.get_controller cid <;> simp [proceed, h, isNotYet]
  | controllerRecovery cid =>
    cases h : sim.get_controller cid <;> simp [proceed, h, isNotYet]
  | hostMigration a b c d => simp [proceed, isNotYet]
  | policyChange rt => exact absurd rfl (hnp rt)
  | trafficInjection =>
    cases h : sim.dataplane_trace <;> simp [proceed, h, isNotYet]
  | waitTime wt => simp [proceed, isNotYet]
  | checkInvariants foe chk =>
    by_cases h : sim.violations = [] <;> cases foe <;>
      simp [proceed, h, isNotYet]
  | controlChannelBlock dpid cid => simp [isInputEvent] at hinp
  | controlChannelUnblock dpid cid => simp [isInputEvent] at hinp
  | dataplaneDrop fp => simp [isInputEvent] at hinp
  | dataplanePermit fp => simp [isInputEvent] at hinp
  | controlMessageReceive dpid cid fp => simp [isInputEvent] at hinp
  | controllerStateChange cid fp n v => simp [isInputEvent] at hinp
  | deterministicValue => simp [isInputEvent] at hinp

/-- Witness for C8 (amended) at a concrete input event and state. -/
theorem claim_C8_witness :
    isNotYet (proceed ⟨"e6", ⟨0, 0⟩, [], .waitTime 1⟩ simEmpty) = false :=
  claim_C8_amended ⟨"e6", ⟨0, 0⟩, [], .waitTime 1⟩ simEmpty rfl
    (fun _ h => Ev.noConfusion h)

/-- C7: `ControlChannelBlock.proceed` (replay_event.py:555-561) on a
connection that is not blocked sets it blocked and returns Done; on an
already-blocked connection it raises the fatal precondition
`RuntimeError`.  Symmetrically, `ControlChannelUnblock.proceed`
(replay_event.py:581-587) unblocks a blocked connection and returns Done,
and raises on an unblocked one. -/
theorem claim_C7_block_unblock :
    ∀ (sim : Simulation) (dpid : Int) (cid : ControllerId) (sw : Switch)
      (conn : Connection) (lbl lbl' : String) (t t' : SyncTime)
      (dl dl' : List String),
      sim.get_switch dpid = .ok sw →
      sw.get_connection cid = .ok conn →
      ((conn.currently_blocked = false →
          proceed ⟨lbl, t, dl, .controlChannelBlock dpid cid⟩ sim
            = .ok (true, sim.set_blocked dpid cid true) ∧
          ∃ sw' conn',
            (sim.set_blocked dpid cid true).get_switch dpid = .ok sw' ∧
            sw'.get_connection cid = .ok conn' ∧
            conn'.currently_blocked = true) ∧
       (conn.currently_blocked = true →
          proceed ⟨lbl, t, dl, .controlChannelBlock dpid cid⟩ sim
            = .error (.runtimeError "Expected channel to not be blocked")) ∧
       (conn.currently_blocked = true →
          proceed ⟨lbl', t', dl', .controlChannelUnblock dpid cid⟩ sim
            = .ok (true, sim.set_blocked dpid cid false) ∧
          ∃ sw' conn',
            (sim.set_blocked dpid cid false).get_switch dpid = .ok sw' ∧
            sw'.get_connection cid = .ok conn' ∧
            conn'.currently_blocked = false) ∧
       (conn.currently_blocked = false →
          proceed ⟨lbl', t', dl', .controlChannelUnblock dpid cid⟩ sim
            = .error (.runtimeError "Expected channel to be blocked"))) := by
  intro sim dpid cid sw conn lbl lbl' t t' dl dl' h1 h2
  refine ⟨?_, ?_, ?_, ?_⟩
  · intro hb
    exact ⟨by simp [proceed, h1, h2, hb], set_blocked_resolves true h1 h2⟩
  · intro hb
    simp [proceed, h1, h2, hb]
  · intro hb
    exact ⟨by simp [proceed, h1, h2, hb], set_blocked_resolves false h1 h2⟩
  · intro hb
    simp [proceed, h1, h2, hb]

/-- Witness for C7 at a concrete simulation: blocking an unblocked
channel succeeds; unblocking it first raises the precondition error. -/
theorem claim_C7_witness :
    proceed ⟨"b1", ⟨0, 0⟩, [], .controlChannelBlock 1 ("127.0.0.1", 8888)⟩ simC7
      = .ok (true, simC7.set_blocked 1 ("127.0.0.1", 8888) true) ∧
    proceed ⟨"u1", ⟨0, 0⟩, [], .controlChannelUnblock 1 ("127.0.0.1", 8888)⟩ simC7
      = .error (.runtimeError "Expected channel to be blocked") := by
  have h := claim_C7_block_unblock simC7 1 ("127.0.0.1", 8888)
    ⟨[], [(("127.0.0.1", 8888), ⟨false⟩)]⟩ ⟨false⟩ "b1" "u1" ⟨0, 0⟩ ⟨0, 0⟩ [] []
    rfl rfl
  exact ⟨(h.1 rfl).1, h.2.2.2 rfl⟩

/-- C1: evaluating the round trip at a `ControllerRecovery`:
serialization succeeds, deserialization succeeds and preserves label,
time and `controller_id` — but yields a **ControllerFailure**, because
`ControllerRecovery.from_json` (replay_event.py:424-430) ends with
`return ControllerFailure(...)`.  So `from_json(to_json(e))` is not
structurally equal to `e`: the subtype differs. -/
theorem claim_C1_roundtrip_bug :
    ∃ j e', to_json crEvent = .ok j ∧ from_json j = .ok e' ∧
      e'.label = crEvent.label ∧ e'.time = crEvent.time ∧
      e'.body = .controllerFailure ("127.0.0.1", 8899) ∧
      e'.body ≠ crEvent.body :=
  ⟨_, _, rfl, rfl, rfl, rfl, rfl, fun h => Ev.noConfusion h⟩

/-- C2: evaluating the parsers at the divergence points.
`ControllerStateChange.from_json` rejects an object carrying exactly the
spec-table keys because its `assert_fields_exist` call also demands
`dpid` (replay_event.py:715); with a spurious `dpid` added it accepts
(and ignores it).  And `ControllerFailure.from_json` on input lacking
`controller_id` raises `KeyError` from the subscript — not the
`ValueError` structural error — because its `assert_fields_exist` call
forgot the `json_hash` argument (replay_event.py:405) and so checks
nothing. -/
theorem claim_C2_field_check_bug :
    from_json (.obj cscJsonNoDpid)
      = .error (.valueError "Field dpid not in json_hash ...") ∧
    from_json (.obj (("dpid", .num 1) :: cscJsonNoDpid))
      = .ok ⟨"e8", ⟨2, 0⟩, [],
          .controllerStateChange ("c1", 6633) (.str "fp") "mastership"
            (.str "MASTER")⟩ ∧
    ControllerFailure.from_json
        [("label", .str "e9"), ("time", .arr [.num 0, .num 0])]
      = .error (.keyError "controller_id") :=
  ⟨rfl, rfl, rfl⟩

/-- C9: for every operation sequence, every message received from the
controller is appended (in order) to the god scheduler's pending queue as
`(dpid, controller_id, msg)` instead of being delivered to the switch,
and the switch's stored true handler is invoked exactly on the
`allow_message_receipt` calls: the delivered list is exactly the allowed
messages, in order. -/
theorem claim_C9_deferred_connection {Msg : Type} :
    ∀ (dpid : Int) (cid : ControllerId) (ops : List (ConnOp Msg))
      (st : ConnState Msg),
      connRun dpid cid st ops =
        ⟨st.god_pending ++ (receivedOf ops).map (fun m => (dpid, cid, m)),
         st.delivered_to_switch ++ allowedOf ops⟩ := by
  intro dpid cid ops
  induction ops with
  | nil => intro st; simp [connRun, receivedOf, allowedOf]
  | cons op t ih =>
    intro st
    cases op with
    | receive m =>
      show connRun dpid cid (connStep dpid cid st (.receive m)) t = _
      rw [ih]
      simp [connStep, receivedOf, allowedOf]
    | allow m =>
      show connRun dpid cid (connStep dpid cid st (.allow m)) t = _
      rw [ih]
      simp [connStep, receivedOf, allowedOf]

/-- C10: `reversed_link` is an involution up to `Link.__eq__`: reversing
a link (whose ports are already resolved port objects) twice yields a
link equal to the original on all four compared fields. -/
theorem claim_C10_reversed_involution :
    ∀ l : Link, linkEq (l.reversed_link.reversed_link) l = true := by
  intro l
  simp [Link.reversed_link, linkEq]

/-- C5: after `remove_events(S)` — with `_remove_event` modelled from the
spec, the source's body being syntactically invalid — every event of `S`
that is an InputEvent and not of a recovery kind, and every event whose
label lies in the transitive closure of `dependent_labels` starting from
it, is absent from the DAG's event list and from both its (derived) label
and position indices; recovery-kind events of `S` that are not reachable
through any such closure remain in the DAG.  The hypothesis says the
roots' labels resolve consistently in the DAG (labels are unique within a
DAG, spec §3). -/
theorem claim_C5_remove_closure :
    ∀ (d0 : List Event) (S : List Event),
      (∀ e ∈ prunedRoots S, ∀ r ∈ d0, r.label = e.label →
        r.dependent_labels = e.dependent_labels) →
      ((∀ lbl, ReachLbl d0 (prunedRoots S) lbl →
          (∀ ev ∈ remove_events d0 S, ev.label ≠ lbl) ∧
          label2event (remove_events d0 S) lbl = none ∧
          event_to_index (remove_events d0 S) lbl = none) ∧
       (∀ e ∈ S, isRecoveryType e.body = true → e ∈ d0 →
          ¬ ReachLbl d0 (prunedRoots S) e.label →
          e ∈ remove_events d0 S)) := by
  intro d0 S hroots
  have hroots' : ∀ e ∈ prunedRoots S, ∀ r, label2event d0 e.label = some r →
      r.dependent_labels = e.dependent_labels := by
    intro e he r hr
    have hmem : r ∈ d0 := List.mem_of_find?_eq_some hr
    have hlab : r.label = e.label := by
      have h2 := List.find?_some
        (p := fun (x : Event) => decide (x.label = e.label)) hr
      simpa using h2
    exact hroots e he r hmem hlab
  obtain ⟨R', hrep, _, hlbls, hdeps, hclosed, hP⟩ :=
    remove_events_fold_spec d0 (prunedRoots S) d0 [] (by simp)
      (fun l hl => absurd hl (List.not_mem_nil l)) hroots'
  have hre : remove_events d0 S
      = d0.filter (fun x => !decide (x.label ∈ R')) := hrep
  have hdich : ∀ lbl, ReachLbl d0 (prunedRoots S) lbl →
      lbl ∈ R' ∨ label2event d0 lbl = none := by
    intro lbl h
    induction h with
    | root e he => exact Or.inl (hlbls e he)
    | rootDep e he lbl hl => exact hdeps e he lbl hl
    | step lbl' lbl ev h1 h2 h3 ihd =>
      rcases ihd with h | h
      · rcases hclosed lbl' h ev h2 lbl h3 with h4 | h4 | h4
        · exact Or.inl h4
        · cases h4
        · exact Or.inr h4
      · rw [h] at h2
        cases h2
  constructor
  · intro lbl hreach
    have habs : ∀ ev ∈ remove_events d0 S, ev.label ≠ lbl := by
      intro ev hev heq
      rcases hdich lbl hreach with h | h
      · rw [hre] at hev
        have h2 := (List.mem_filter.mp hev).2
        rw [heq] at h2
        simp only [Bool.not_eq_eq_eq_not, Bool.not_true, decide_eq_false_iff_not] at h2
        exact h2 h
      · have hev0 : ev ∈ d0 := by
          rw [hre] at hev
          exact (List.mem_filter.mp hev).1
        unfold label2event at h
        have h2 := List.find?_eq_none.mp h ev hev0
        simp only [decide_eq_true_eq] at h2
        exact h2 heq
    refine ⟨habs, ?_, ?_⟩
    · unfold label2event
      apply List.find?_eq_none.mpr
      intro x hx
      simp only [decide_eq_true_eq]
      exact habs x hx
    · exact event_to_index_eq_none (fun x hx => habs x hx)
  · intro e heS hrecov heD hnreach
    rw [hre]
    apply List.mem_filter.mpr
    refine ⟨heD, ?_⟩
    have hnotR : e.label ∉ R' := by
      intro hR
      apply hnreach
      apply hP (fun lbl => ReachLbl d0 (prunedRoots S) lbl)
        (fun l hl => absurd hl (List.not_mem_nil l))
        (fun e' he' => ⟨ReachLbl.root e' he',
          fun dep hdep => ReachLbl.rootDep e' he' dep hdep⟩)
        (fun lbl ev hPl hfind dep hdep => ReachLbl.step lbl dep ev hPl hfind hdep)
        e.label hR
    simp [hnotR]

/-- Witness for C5 on a concrete DAG `[E1, E2, E3]` with
`S = [E1, E3]`: pruning removes the failure `E1` and drags in its
dependent recovery `E2` (label `e2` is gone), while the recovery `E3`,
which is in `S` but of a recovery kind and unreachable, remains. -/
theorem claim_C5_witness :
    (∀ ev ∈ remove_events [E1, E2, E3] [E1, E3], ev.label ≠ "e2") ∧
    E3 ∈ remove_events [E1, E2, E3] [E1, E3] := by
  have h := claim_C5_remove_closure [E1, E2, E3] [E1, E3] (by decide)
  constructor
  · have he1 : E1 ∈ prunedRoots [E1, E3] :=
      List.mem_filter.mpr ⟨List.mem_cons_self _ _, rfl⟩
    have hreach : ReachLbl [E1, E2, E3] (prunedRoots [E1, E3]) "e2" :=
      ReachLbl.rootDep E1 he1 "e2" (List.mem_singleton.mpr rfl)
    exact (h.1 "e2" hreach).1
  · apply h.2 E3 (List.mem_cons_of_mem _ (List.mem_cons_self _ _)) rfl
      (List.mem_cons_of_mem _ (List.mem_cons_of_mem _ (List.mem_cons_self _ _)))
    intro hr
    rcases reach_elim hr with h2 | h2 | h2
    · exact absurd h2 (by decide)
    · exact absurd h2 (by decide)
    · exact absurd h2 (by decide)
